import Mathlib

/-! # Verification of the Jules code-review webhook service

A shallow embedding, in Lean 4, of the core pure logic of the service:

* `src/utils/security.py` — HMAC-SHA256 webhook signature building/verification
  (SHA-256 and HMAC are implemented bit-faithfully over `Nat` with explicit
  `% 2^32` arithmetic);
* `src/webhook.py` — the webhook handler pipeline: header checks, signature
  verification, JSON-payload normalisation into typed job payloads,
  delivery-id deduplication with a TTL cache, and enqueueing;
* `src/github_client.py` — installation-token caching (`is_active`,
  `get_installation_token`);
* `src/jules_client.py` — the polling loop with tiered error handling,
  prompt construction with file/patch caps, and agent-response parsing.

Python strings are modelled as `List Char`, byte strings as `List Nat`,
wall-clock instants as `ℚ` (seconds), parsed JSON as the inductive `JVal`.
External effects (HTTP fetches, the queue, `json.loads`) enter as explicit
parameters, so every function here is executable and deterministic.
-/

/-- Python `str`, modelled as a list of characters. -/
abbrev Str := List Char

/-- Python `bytes`, modelled as a list of byte values. -/
abbrev Bytes := List Nat

/-- Coerce a Lean string literal to the `Str` model. -/
def str (s : String) : Str := s.data

/-! ## SHA-256 (FIPS 180-4), over `Nat` with explicit mod-2³² arithmetic -/

namespace Sha256

def M32 : Nat := 2 ^ 32

def add32 (a b : Nat) : Nat := (a + b) % M32

def not32 (x : Nat) : Nat := x ^^^ (M32 - 1)

def rotr32 (x n : Nat) : Nat := ((x >>> n) ||| (x <<< (32 - n))) % M32

/-- The eight initial hash values `H⁽⁰⁾`. -/
def initH : List Nat :=
  [1779033703, 3144134277, 1013904242, 2773480762,
   1359893119, 2600822924, 528734635, 1541459225]

/-- The sixty-four round constants `K` (written in decimal). -/
def roundK : List Nat :=
  [1116352408, 1899447441, 3049323471, 3921009573, 961987163,
   1508970993, 2453635748, 2870763221, 3624381080, 310598401,
   607225278, 1426881987, 1925078388, 2162078206, 2614888103,
   3248222580, 3835390401, 4022224774, 264347078, 604807628,
   770255983, 1249150122, 1555081692, 1996064986, 2554220882,
   2821834349, 2952996808, 3210313671, 3336571891, 3584528711,
   113926993, 338241895, 666307205, 773529912, 1294757372,
   1396182291, 1695183700, 1986661051, 2177026350, 2456956037,
   2730485921, 2820302411, 3259730800, 3345764771, 3516065817,
   3600352804, 4094571909, 275423344, 430227734, 506948616,
   659060556, 883997877, 958139571, 1322822218, 1537002063,
   1747873779, 1955562222, 2024104815, 2227730452, 2361852424,
   2428436474, 2756734187, 3204031479, 3329325298]

/-- Big-endian byte serialisation of `x` on `n` bytes. -/
def toBytesBE (n x : Nat) : Bytes :=
  (List.range n).map fun i => (x >>> (8 * (n - 1 - i))) % 256

/-- Merkle–Damgård padding: `0x80`, zeros to 56 mod 64, 8-byte big-endian bit length. -/
def pad (msg : Bytes) : Bytes :=
  let zeros := (120 - (msg.length + 1) % 64) % 64
  msg ++ [0x80] ++ List.replicate zeros 0 ++ toBytesBE 8 (8 * msg.length)

/-- Split into 64-byte blocks. -/
def chunks64 (l : Bytes) : List Bytes :=
  if h : l = [] then []
  else l.take 64 :: chunks64 (l.drop 64)
termination_by l.length
decreasing_by
  simp only [List.length_drop]
  have : 0 < l.length := List.length_pos.mpr h
  omega

/-- Pack four bytes into one big-endian 32-bit word. -/
def wordsOfBytes : Bytes → List Nat
  | b0 :: b1 :: b2 :: b3 :: rest =>
      ((b0 <<< 24) ||| (b1 <<< 16) ||| (b2 <<< 8) ||| b3) :: wordsOfBytes rest
  | _ => []

/-- Extend the 16-word message schedule by `n` further words. -/
def extendSchedule (w : List Nat) : Nat → List Nat
  | 0 => w
  | n + 1 =>
      let t := w.length
      let s0 :=
        rotr32 (w.getD (t - 15) 0) 7 ^^^ rotr32 (w.getD (t - 15) 0) 18 ^^^
          (w.getD (t - 15) 0 >>> 3)
      let s1 :=
        rotr32 (w.getD (t - 2) 0) 17 ^^^ rotr32 (w.getD (t - 2) 0) 19 ^^^
          (w.getD (t - 2) 0 >>> 10)
      extendSchedule
        (w ++ [add32 (add32 (w.getD (t - 16) 0) s0) (add32 (w.getD (t - 7) 0) s1)]) n

/-- One compression round on the working variables `[a,b,c,d,e,f,g,h]`. -/
def round (st : List Nat) (kt wt : Nat) : List Nat :=
  let a := st.getD 0 0
  let b := st.getD 1 0
  let c := st.getD 2 0
  let d := st.getD 3 0
  let e := st.getD 4 0
  let f := st.getD 5 0
  let g := st.getD 6 0
  let h := st.getD 7 0
  let bigS1 := rotr32 e 6 ^^^ rotr32 e 11 ^^^ rotr32 e 25
  let ch := (e &&& f) ^^^ (not32 e &&& g)
  let temp1 := add32 (add32 (add32 h bigS1) (add32 ch kt)) wt
  let bigS0 := rotr32 a 2 ^^^ rotr32 a 13 ^^^ rotr32 a 22
  let maj := (a &&& b) ^^^ (a &&& c) ^^^ (b &&& c)
  let temp2 := add32 bigS0 maj
  [add32 temp1 temp2, a, b, c, add32 d temp1, e, f, g]

/-- Process one 64-byte block against the running hash `h`. -/
def processBlock (h : List Nat) (block : Bytes) : List Nat :=
  let w := extendSchedule (wordsOfBytes block) 48
  let final := (roundK.zip w).foldl (fun st kw => round st kw.1 kw.2) h
  List.zipWith add32 h final

/-- SHA-256 digest of a byte string, as 32 bytes. -/
def sha256 (msg : Bytes) : Bytes :=
  let h := (chunks64 (pad msg)).foldl processBlock initH
  h.flatMap (toBytesBE 4)

end Sha256

/-- HMAC-SHA256 (RFC 2104) with the 64-byte SHA-256 block size. -/
def hmacSha256 (key msg : Bytes) : Bytes :=
  let key := if key.length > 64 then Sha256.sha256 key else key
  let key := key ++ List.replicate (64 - key.length) 0
  let ipadded := key.map (· ^^^ 0x36)
  let opadded := key.map (· ^^^ 0x5c)
  Sha256.sha256 (opadded ++ Sha256.sha256 (ipadded ++ msg))

/-- Lower-case hex character for a value below 16. -/
def hexChar (n : Nat) : Char :=
  if n < 10 then Char.ofNat (48 + n) else Char.ofNat (87 + n)

/-- Lower-case hex rendering of a byte string (Python `hexdigest()`). -/
def hexOfBytes (bs : Bytes) : Str :=
  bs.flatMap fun b => [hexChar (b / 16), hexChar (b % 16)]

/-- UTF-8 encoding of one character (Python `str.encode("utf-8")`, per char). -/
def utf8Char (c : Char) : Bytes :=
  let n := c.toNat
  if n < 0x80 then [n]
  else if n < 0x800 then
    [0xc0 ||| (n >>> 6), 0x80 ||| (n &&& 0x3f)]
  else if n < 0x10000 then
    [0xe0 ||| (n >>> 12), 0x80 ||| ((n >>> 6) &&& 0x3f), 0x80 ||| (n &&& 0x3f)]
  else
    [0xf0 ||| (n >>> 18), 0x80 ||| ((n >>> 12) &&& 0x3f),
     0x80 ||| ((n >>> 6) &&& 0x3f), 0x80 ||| (n &&& 0x3f)]

/-- UTF-8 encoding of a string. -/
def utf8Encode (s : Str) : Bytes := s.flatMap utf8Char

/-! ## `src/utils/security.py` -/

/-- `hmac.compare_digest`: a timing-safe equality; functionally, equality. -/
def compareDigest (a b : Str) : Bool := a = b

/-- `build_github_signature(secret, payload)`:
`"sha256=" + hmac.new(secret.encode("utf-8"), payload, sha256).hexdigest()`. -/
def build_github_signature (secret : Str) (payload : Bytes) : Str :=
  str "sha256=" ++ hexOfBytes (hmacSha256 (utf8Encode secret) payload)

/-- `verify_github_signature(secret, payload, raw_signature)`: `False` on a
falsy (absent or empty) header, else a constant-time comparison against the
expected signature. -/
def verify_github_signature (secret : Str) (payload : Bytes) (rawSignature : Option Str) : Bool :=
  match rawSignature with
  | none => false
  | some s => if s.isEmpty then false else compareDigest (build_github_signature secret payload) s

/-! ## Parsed JSON values

`json.loads` results are modelled by `JVal`; objects keep field order, and a
repeated key's last occurrence wins on lookup, as in Python's `dict`. -/

inductive JVal where
  | null
  | bool (b : Bool)
  | num (n : Int)
  | s (v : Str)
  | arr (items : List JVal)
  | obj (fields : List (Str × JVal))
deriving Repr

/-- Python truthiness of a JSON-derived value. -/
def JVal.truthy : JVal → Bool
  | .null => false
  | .bool b => b
  | .num n => n != 0
  | .s v => !v.isEmpty
  | .arr items => !items.isEmpty
  | .obj fields => !fields.isEmpty

/-- Python `a or b` on JSON-derived values. -/
def pyOr (a b : JVal) : JVal := if a.truthy then a else b

/-- `dict` lookup: the last binding of the key, `null` (Python `None`) if absent. -/
def lookupKey (fields : List (Str × JVal)) (k : Str) : JVal :=
  fields.foldl (fun acc kv => if kv.1 = k then kv.2 else acc) .null

/-- A Python exception cut loose inside the webhook normaliser. -/
inductive PyFailure where
  | ignoreEvent (msg : Str)
  | valueError (msg : Str)
  | uncaught
deriving Repr

/-- `x.get(k)`: a `dict` lookup; on a non-`dict` an `AttributeError`, which no
handler in `webhook.py` catches. -/
def jvalGet (v : JVal) (k : Str) : Except PyFailure JVal :=
  match v with
  | .obj fields => .ok (lookupKey fields k)
  | _ => .error .uncaught

/-- Python `str()` rendering, for f-string interpolation in error messages. -/
def pyStr : JVal → Str
  | .null => str "None"
  | .bool true => str "True"
  | .bool false => str "False"
  | .num n => (toString n).data
  | .s v => v
  | .arr _ => str "[...]"
  | .obj _ => str "{...}"

/-! ## `src/webhook.py` — ingestion pipeline

The handler's collaborators enter as explicit data: settings as an
`Option Credentials` (`None` models a `SettingsError`), `json.loads` as a
`decodeJson` parameter, `time.time()` as the rational `now`, and
`enqueue_review_job` as an `enqueueFails` flag plus the returned list of
enqueued jobs. `received_at` and logging are dropped; pydantic construction
of the typed payloads is modelled as packaging of the extracted values. -/

namespace Webhook

def DELIVERY_TTL_SECONDS : ℚ := 60 * 60

/-- `_delivery_cache`: delivery id → first-seen timestamp. -/
abbrev DeliveryCache := List (Str × ℚ)

/-- `_prune_delivery_cache`: drop entries with `timestamp < now - TTL`. -/
def prune_delivery_cache (now : ℚ) (cache : DeliveryCache) : DeliveryCache :=
  cache.filter fun kv => !decide (kv.2 < now - DELIVERY_TTL_SECONDS)

/-- `_mark_delivery`: `dict` assignment of `now` under `delivery_id`. -/
def mark_delivery (d : Str) (now : ℚ) : DeliveryCache → DeliveryCache
  | [] => [(d, now)]
  | kv :: rest => if kv.1 = d then (kv.1, now) :: rest else kv :: mark_delivery d now rest

/-- `_is_duplicate`: prune, then key membership; returns the mutated cache too. -/
def is_duplicate (d : Str) (now : ℚ) (cache : DeliveryCache) : Bool × DeliveryCache :=
  let pruned := prune_delivery_cache now cache
  (pruned.any fun kv => kv.1 = d, pruned)

def supported_pr_actions : List Str :=
  [str "opened", str "reopened", str "synchronize", str "ready_for_review"]

/-- Python `action in _supported_pr_actions` (a set of strings): only a string
can be a member; `None`, booleans and numbers are hashable and simply absent,
but a list or dict action makes the membership test raise
`TypeError: unhashable type`, which no handler in `webhook.py` catches. -/
def actionSupported (action : JVal) : Except PyFailure Bool :=
  match action with
  | .s v => .ok (supported_pr_actions.any (fun a => a = v))
  | .arr _ => .error .uncaught
  | .obj _ => .error .uncaught
  | _ => .ok false

structure RepositoryInfo where
  id : JVal
  full_name : JVal
  owner : JVal
  name : JVal
deriving Repr

structure PushPayload where
  installation_id : JVal
  repository : RepositoryInfo
  ref : JVal
  before : JVal
  after : JVal
  commits : List JVal
  pusher : JVal
  compare : JVal
deriving Repr

structure PullRequestEndpoint where
  ref : JVal
  sha : JVal
deriving Repr

structure PullRequestInfo where
  number : JVal
  title : JVal
  url : JVal
  head : PullRequestEndpoint
  base : PullRequestEndpoint
deriving Repr

structure PullRequestPayload where
  installation_id : JVal
  repository : RepositoryInfo
  action : JVal
  pull_request : PullRequestInfo
  sender : JVal
deriving Repr

inductive JobPayload where
  | push (p : PushPayload)
  | pullRequest (p : PullRequestPayload)
deriving Repr

/-- `ReviewJob` (sans `received_at`, a wall-clock default). -/
structure ReviewJob where
  delivery_id : Str
  event : Str
  payload : JobPayload
deriving Repr

/-- `_build_push_job`. -/
def build_push_job (payload : JVal) : Except PyFailure PushPayload := do
  let installation := pyOr (← jvalGet payload (str "installation")) (.obj [])
  let repository := pyOr (← jvalGet payload (str "repository")) (.obj [])
  let instId ← jvalGet installation (str "id")
  if ¬ instId.truthy then
    throw (.valueError (str "Push event missing installation id."))
  let fullName ← jvalGet repository (str "full_name")
  if ¬ fullName.truthy then
    throw (.valueError (str "Push event missing repository metadata."))
  let commits := pyOr (← jvalGet payload (str "commits")) (.arr [])
  let commitIds ← match commits with
    | .arr items => items.mapM (fun c => jvalGet c (str "id"))
    | _ => Except.error PyFailure.uncaught
  let ownerRaw ← jvalGet repository (str "owner")
  let owner ← jvalGet (pyOr ownerRaw (.obj [])) (str "login")
  return {
    installation_id := instId
    repository := {
      id := ← jvalGet repository (str "id")
      full_name := fullName
      owner := owner
      name := ← jvalGet repository (str "name") }
    ref := ← jvalGet payload (str "ref")
    before := ← jvalGet payload (str "before")
    after := ← jvalGet payload (str "after")
    commits := commitIds.filter JVal.truthy
    pusher := pyOr (← jvalGet payload (str "pusher")) (.obj [])
    compare := ← jvalGet payload (str "compare") }

/-- `_build_pull_request_job`: the action filter runs before any required-field
validation, so an unsupported hashable action is an ignore outcome whatever
else the payload holds, while an unhashable (array/object) action raises out
of the membership test itself. -/
def build_pull_request_job (payload : JVal) : Except PyFailure PullRequestPayload := do
  let action ← jvalGet payload (str "action")
  let supported ← actionSupported action
  if ¬ supported then
    throw (.ignoreEvent
      (str "Pull request action \'" ++ pyStr action ++ str "\' not actionable."))
  let installation := pyOr (← jvalGet payload (str "installation")) (.obj [])
  let repository := pyOr (← jvalGet payload (str "repository")) (.obj [])
  let pullRequest := pyOr (← jvalGet payload (str "pull_request")) (.obj [])
  let instId ← jvalGet installation (str "id")
  if ¬ instId.truthy then
    throw (.valueError (str "Pull request event missing installation id."))
  let fullName ← jvalGet repository (str "full_name")
  if ¬ fullName.truthy then
    throw (.valueError (str "Pull request event missing repository metadata."))
  let number ← jvalGet pullRequest (str "number")
  if ¬ number.truthy then
    throw (.valueError (str "Pull request payload missing number."))
  let head := pyOr (← jvalGet pullRequest (str "head")) (.obj [])
  let base := pyOr (← jvalGet pullRequest (str "base")) (.obj [])
  let ownerRaw ← jvalGet repository (str "owner")
  let owner ← jvalGet (pyOr ownerRaw (.obj [])) (str "login")
  return {
    installation_id := instId
    repository := {
      id := ← jvalGet repository (str "id")
      full_name := fullName
      owner := owner
      name := ← jvalGet repository (str "name") }
    action := action
    pull_request := {
      number := number
      title := ← jvalGet pullRequest (str "title")
      url := ← jvalGet pullRequest (str "html_url")
      head := { ref := ← jvalGet head (str "ref"), sha := ← jvalGet head (str "sha") }
      base := { ref := ← jvalGet base (str "ref"), sha := ← jvalGet base (str "sha") } }
    sender := pyOr (← jvalGet payload (str "sender")) (.obj []) }

/-- `_build_job_payload`: dispatch on the event header. -/
def build_job_payload (event : Str) (payload : JVal) : Except PyFailure JobPayload :=
  if event = str "push" then
    (build_push_job payload).map .push
  else if event = str "pull_request" then
    (build_pull_request_job payload).map .pullRequest
  else
    .error (.ignoreEvent (str "Event \'" ++ event ++ str "\' is not handled."))

/-- The HTTP-level outcome: a 200 JSON body, or an `HTTPException`-style
status/detail pair (an uncaught exception surfaces as a 500). -/
inductive WebhookResponse where
  | body (status : Str) (reason : Option Str)
  | httpError (code : Nat) (detail : Str)
deriving Repr, DecidableEq

structure Credentials where
  github_webhook_secret : Str
deriving Repr

structure WebhookRequest where
  settings : Option Credentials
  deliveryId : Option Str
  event : Option Str
  signature : Option Str
  rawBody : Bytes
  now : ℚ
  enqueueFails : Bool

structure WebhookOutcome where
  response : WebhookResponse
  cache : DeliveryCache
  enqueued : List ReviewJob
deriving Repr

/-- Python falsiness of an optional header value. -/
def headerFalsy (o : Option Str) : Bool :=
  match o with
  | none => true
  | some s => s.isEmpty

/-- `receive_webhook`, in the source's order: require credentials, then the
`X-GitHub-Delivery` and `X-GitHub-Event` headers, then verify the signature,
parse JSON, dedupe, normalise, enqueue, and only then mark the delivery. -/
def receive_webhook (decodeJson : Bytes → Option JVal) (req : WebhookRequest)
    (cache : DeliveryCache) : WebhookOutcome :=
  match req.settings with
  | none => ⟨.httpError 500 (str "Configuration error"), cache, []⟩
  | some credentials =>
    if headerFalsy req.deliveryId then
      ⟨.httpError 400 (str "Missing X-GitHub-Delivery header"), cache, []⟩
    else if headerFalsy req.event then
      ⟨.httpError 400 (str "Missing X-GitHub-Event header"), cache, []⟩
    else if ¬ verify_github_signature credentials.github_webhook_secret req.rawBody
        req.signature then
      ⟨.httpError 401 (str "Invalid signature"), cache, []⟩
    else
      match decodeJson req.rawBody with
      | none => ⟨.httpError 400 (str "Invalid JSON payload"), cache, []⟩
      | some payload =>
        let delivery := req.deliveryId.getD []
        let event := req.event.getD []
        let dedup := is_duplicate delivery req.now cache
        if dedup.1 then
          ⟨.body (str "ignored") (some (str "duplicate")), dedup.2, []⟩
        else
          match build_job_payload event payload with
          | .error (.ignoreEvent msg) => ⟨.body (str "ignored") (some msg), dedup.2, []⟩
          | .error (.valueError msg) => ⟨.httpError 400 msg, dedup.2, []⟩
          | .error .uncaught => ⟨.httpError 500 (str "Internal Server Error"), dedup.2, []⟩
          | .ok jobPayload =>
            let job : ReviewJob := ⟨delivery, event, jobPayload⟩
            if req.enqueueFails then
              ⟨.httpError 500 (str "Failed to enqueue job"), dedup.2, []⟩
            else
              ⟨.body (str "accepted") none, mark_delivery delivery req.now dedup.2, [job]⟩

end Webhook

/-! ## `src/github_client.py` — installation-token caching

The HTTP fetch (`_fetch_installation_token`) enters as an explicit
`Except`-valued argument: the token GitHub would return, or the typed API
error the fetch would raise. `datetime` instants are rationals (seconds). -/

namespace GitHubClient

structure GitHubAPIError where
  message : Str
  status_code : Nat
deriving Repr

structure InstallationToken where
  token : Str
  expires_at : ℚ
  permissions : Option JVal := none
deriving Repr

/-- `InstallationToken.is_active`: `expires_at - skew > now`. -/
def InstallationToken.is_active (t : InstallationToken) (now : ℚ)
    (skew_seconds : ℚ := 60) : Bool :=
  decide (t.expires_at - skew_seconds > now)

/-- `_installation_tokens`: installation id → cached token. -/
abbrev TokenCache := List (Nat × InstallationToken)

def tokenCacheGet (c : TokenCache) (id : Nat) : Option InstallationToken :=
  c.foldl (fun acc kv => if kv.1 = id then some kv.2 else acc) none

def tokenCacheSet (id : Nat) (tok : InstallationToken) : TokenCache → TokenCache
  | [] => [(id, tok)]
  | kv :: rest => if kv.1 = id then (kv.1, tok) :: rest else kv :: tokenCacheSet id tok rest

/-- `get_installation_token`: return the cached token while `is_active()`,
otherwise store and return whatever the fetch produced — the fetched token is
handed out without any activity check. -/
def get_installation_token (cache : TokenCache) (installation_id : Nat) (now : ℚ)
    (fetched : Except GitHubAPIError InstallationToken) :
    Except GitHubAPIError InstallationToken × TokenCache :=
  match tokenCacheGet cache installation_id with
  | some cached =>
    if cached.is_active now then (.ok cached, cache)
    else
      match fetched with
      | .error e => (.error e, cache)
      | .ok tok => (.ok tok, tokenCacheSet installation_id tok cache)
  | none =>
    match fetched with
    | .error e => (.error e, cache)
    | .ok tok => (.ok tok, tokenCacheSet installation_id tok cache)

end GitHubClient

/-! ## `src/jules_client.py` — fragment extraction, polling, prompt, parsing -/

namespace Jules

/-- Python `str.isspace()` characters (the ASCII ones `\s` matches). -/
def isPySpace (c : Char) : Bool :=
  c == ' ' || c == '\t' || c == '\n' || c == '\r' ||
    c == Char.ofNat 11 || c == Char.ofNat 12

/-- Python `str.strip()`. -/
def pyStrip (s : Str) : Str :=
  ((s.dropWhile isPySpace).reverse.dropWhile isPySpace).reverse

/-- The lazy tail of the fenced-block regex: scanning `.*?` one character at a
time, succeed at the first brace-close immediately followed by three backticks,
capturing the brace span. -/
def fencedClose : Str → Str → Option Str
  | [], _ => none
  | c :: rest, acc =>
    if c == Char.ofNat 125 && (str "\x60\x60\x60").isPrefixOf rest then
      some ((Char.ofNat 123 :: acc.reverse) ++ [Char.ofNat 125])
    else fencedClose rest (c :: acc)

/-- One anchored attempt of the fenced-block pattern
(three backticks, optional `json`, whitespace, a lazily closed brace span,
three backticks). -/
def fencedAt (t : Str) : Option Str :=
  if (str "\x60\x60\x60").isPrefixOf t then
    let r := t.drop 3
    let r := if (str "json").isPrefixOf r then r.drop 4 else r
    let r := r.dropWhile isPySpace
    match r with
    | c :: rest => if c == Char.ofNat 123 then fencedClose rest [] else none
    | [] => none
  else none

/-- `re.search` for the fenced pattern: leftmost matching start position. -/
def fencedSearch : Str → Option Str
  | [] => none
  | c :: rest =>
    match fencedAt (c :: rest) with
    | some frag => some frag
    | none => fencedSearch rest

/-- The span up to and including the last closing brace, if any. -/
def lastCloseSpan (t : Str) : Option Str :=
  let r := t.reverse.dropWhile (fun c => !(c == Char.ofNat 125))
  if r.isEmpty then none else some r.reverse

/-- Greedy `(\{.*\})` with DOTALL: from the leftmost feasible opening brace to
the last closing brace after it. -/
def braceSearch : Str → Option Str
  | [] => none
  | c :: rest =>
    if c == Char.ofNat 123 then
      match lastCloseSpan rest with
      | some span => some (Char.ofNat 123 :: span)
      | none => braceSearch rest
    else braceSearch rest

/-- `_extract_json_fragment`: strip; empty ⇒ nothing; a backtick-led text tries
the fenced pattern first; then a whole-text brace span; then the greedy regex. -/
def extract_json_fragment (text : Str) : Option Str :=
  let t := pyStrip text
  if t.isEmpty then none
  else
    let fenced := if t.headD ' ' == '\x60' then fencedSearch t else none
    match fenced with
    | some frag => some frag
    | none =>
      if t.headD ' ' == Char.ofNat 123 && t.getLastD ' ' == Char.ofNat 125 then some t
      else braceSearch t

/-- `dict` lookup with an explicit default (Python `d.get(k, default)`). -/
def lookupKeyD (fields : List (Str × JVal)) (k : Str) (dflt : JVal) : JVal :=
  fields.foldl (fun acc kv => if kv.1 = k then kv.2 else acc) dflt

/-- `x.get(k)` with an `AttributeError` on a non-`dict`, as an `Except`. -/
def pyGet (v : JVal) (k : Str) : Except Unit JVal :=
  match v with
  | .obj fields => .ok (lookupKey fields k)
  | _ => .error ()

/-- `x.get(k, default)` with an `AttributeError` on a non-`dict`. -/
def pyGetD (v : JVal) (k : Str) (dflt : JVal) : Except Unit JVal :=
  match v with
  | .obj fields => .ok (lookupKeyD fields k dflt)
  | _ => .error ()

/-- Python `for`-iteration over a JSON-derived value: lists yield items,
strings yield one-character strings, dicts yield their keys, anything else
raises (`TypeError`). -/
def pyIter (v : JVal) : Except Unit (List JVal) :=
  match v with
  | .arr items => .ok items
  | .s chars => .ok (chars.map fun c => .s [c])
  | .obj fields => .ok (fields.map fun kv => .s kv.1)
  | _ => .error ()

/-- `activity.get("originator") != "agent"`, decided against any value shape. -/
def isAgentOriginator (v : JVal) : Bool :=
  match v with
  | .s t => t = str "agent"
  | _ => false

/-- Run `_extract_json_fragment` on one yielded text: the walrus guard keeps
only a truthy result, and `.strip()` on a non-string raises. -/
def tryText (t : JVal) : Except Unit (Option Str) :=
  match t with
  | .s v =>
    .ok (match extract_json_fragment v with
         | some f => if f.isEmpty then none else some f
         | none => none)
  | _ => .error ()

/-- Generator-style scan: stop at the first text that yields a fragment, so
later elements are never touched (lazy generator semantics). -/
def scanList (f : JVal → Except Unit (Option Str)) : List JVal → Except Unit (Option Str)
  | [] => .ok none
  | x :: rest => do
    match ← f x with
    | some r => pure (some r)
    | none => scanList f rest

/-- `messages[i].get("text")`, yielded when truthy. -/
def scanMessage (m : JVal) : Except Unit (Option Str) := do
  let t ← pyGet m (str "text")
  if t.truthy then tryText t else pure none

/-- `outputs[i].get("pullRequest")`, then its `description`, yielded when truthy. -/
def scanOutput (o : JVal) : Except Unit (Option Str) := do
  let pr ← pyGet o (str "pullRequest")
  if pr.truthy then do
    let d ← pyGet pr (str "description")
    if d.truthy then tryText d else pure none
  else pure none

/-- One activity of `_extract_agent_messages`: agent-authored only; message
texts, then the progress description, then output pull-request descriptions. -/
def scanActivity (a : JVal) : Except Unit (Option Str) := do
  match a with
  | .obj fields =>
    if !isAgentOriginator (lookupKey fields (str "originator")) then pure none
    else do
      let msgs ← pyIter (pyOr (lookupKey fields (str "messages")) (.arr []))
      match ← scanList scanMessage msgs with
      | some r => pure (some r)
      | none =>
        let progress := lookupKey fields (str "progressUpdated")
        let progHit ←
          if progress.truthy then do
            let d ← pyGet progress (str "description")
            if d.truthy then tryText d else pure none
          else pure none
        match progHit with
        | some r => pure (some r)
        | none => do
          let outs ← pyIter (pyOr (lookupKey fields (str "outputs")) (.arr []))
          scanList scanOutput outs
  | _ => throw ()

/-- One successful page of the polling loop: walk
`_extract_agent_messages(response_data)` lazily, returning the first extracted
fragment, `none` when the page has none, or the Python error a malformed page
raises. -/
def scanPage (payload : JVal) : Except Unit (Option Str) := do
  let acts ← pyGetD payload (str "activities") (.arr [])
  let items ← pyIter acts
  scanList scanActivity items

/-- What one polling attempt's HTTP exchange produced: an HTTP error (status
at least 400, with the serialised detail) or a 2xx JSON payload. -/
inductive PollUpstream where
  | failure (status : Nat) (detail : Str)
  | success (payload : JVal)

/-- How `_poll_for_response` can terminate abnormally. -/
inductive PollError where
  | julesError (msg : Str)
  | pythonError
deriving Repr

/-- Python `needle in hay` on strings: substring containment. -/
def isSubstring (needle : Str) : Str → Bool
  | [] => needle.isEmpty
  | c :: rest => needle.isPrefixOf (c :: rest) || isSubstring needle rest

/-- The message `_raise_for_status("list activities", response)` raises with. -/
def errorDetailStr (status : Nat) (detail : Str) : Str :=
  str "Failed to list activities: status=" ++ (toString status).data ++
    str ", detail=" ++ detail

/-- The fatal message for a 404 past the retry threshold. -/
def notFoundMsg (attempt : Nat) (e : Str) : Str :=
  str "Session not found after " ++ (toString (attempt + 1)).data ++
    str " attempts. The repository source may not be registered in Jules, or the session was created with invalid parameters. Original error: " ++ e

def max_404_retries : Nat := 3

/-- The polling loop of `_poll_for_response` from loop index `attempt`, also
accumulating the backoff sleeps performed. Error classification is by
substring of the raised message, exactly as in the source: 404/NOT_FOUND
retries below `max_404_retries` and is fatal past it; 429/RATE_LIMIT always
sleeps and retries; 500/INTERNAL retries below the last attempt; anything
else is immediately fatal. A fragment-less 2xx page sleeps (except on the
last attempt) and retries; exhausting all attempts returns no result. -/
def pollStep (feed : Nat → PollUpstream) (attempts : Nat) (delay : ℚ)
    (attempt : Nat) (sleeps : List ℚ) : Except PollError (Option Str) × List ℚ :=
  if h : attempt < attempts then
    match feed attempt with
    | .failure status detail =>
      let e := errorDetailStr status detail
      if isSubstring (str "404") e || isSubstring (str "NOT_FOUND") e then
        if attempt < max_404_retries then
          pollStep feed attempts delay (attempt + 1)
            (sleeps ++ [delay * 2 * ((attempt : ℚ) + 1)])
        else (.error (.julesError (notFoundMsg attempt e)), sleeps)
      else if isSubstring (str "429") e || isSubstring (str "RATE_LIMIT") e then
        pollStep feed attempts delay (attempt + 1) (sleeps ++ [delay * 2 ^ attempt])
      else if isSubstring (str "500") e || isSubstring (str "INTERNAL") e then
        if attempt < attempts - 1 then
          pollStep feed attempts delay (attempt + 1)
            (sleeps ++ [delay * ((attempt : ℚ) + 1)])
        else (.error (.julesError e), sleeps)
      else (.error (.julesError e), sleeps)
    | .success payload =>
      match scanPage payload with
      | .error _ => (.error .pythonError, sleeps)
      | .ok (some frag) => (.ok (some frag), sleeps)
      | .ok none =>
        if attempt < attempts - 1 then
          pollStep feed attempts delay (attempt + 1)
            (sleeps ++ [delay * ((attempt : ℚ) + 1) / (attempts : ℚ)])
        else pollStep feed attempts delay (attempt + 1) sleeps
  else (.ok none, sleeps)
termination_by attempts - attempt
decreasing_by all_goals omega

/-- `_poll_for_response(session_id)` with its default ten attempts and
1.5-second base delay. -/
def poll_for_response (feed : Nat → PollUpstream) (attempts : Nat := 10)
    (delay : ℚ := 3 / 2) : Except PollError (Option Str) × List ℚ :=
  pollStep feed attempts delay 0 []

/-! ### `analyze()`'s poll-result handling and `_parse_analysis` -/

/-- A parsed review finding. `models/review.py`'s `ReviewFinding` is a plain
dataclass, so `path` is stored unvalidated; `message` has passed `.strip()`
and is therefore a string. -/
structure ReviewFinding where
  path : JVal
  start_line : Int
  end_line : Option Int
  message : Str
  severity : Option Str
deriving Repr

structure ReviewAnalysis where
  comments : List ReviewFinding := []
  summary : Option Str := none
deriving Repr

/-- Python `int(x)` on a JSON-derived value: `None` models the `TypeError` or
`ValueError` the extraction block catches. -/
def pyInt : JVal → Option Int
  | .num n => some n
  | .bool b => some (if b then 1 else 0)
  | .s v => pyIntOfStr v
  | _ => none
where
  digitsOk : Str → Bool
    | [] => true
    | '_' :: rest =>
      match rest with
      | c :: r => c.isDigit && digitsOk r
      | [] => false
    | c :: rest => c.isDigit && digitsOk rest
  digitsVal (ds : Str) : Int :=
    ds.foldl (fun acc c => acc * 10 + ((c.toNat : Int) - 48)) 0
  pyIntOfStr (v : Str) : Option Int :=
    let t := pyStrip v
    let sign : Int := match t with
      | '-' :: _ => -1
      | _ => 1
    let t := match t with
      | '+' :: r => r
      | '-' :: r => r
      | _ => t
    match t with
    | [] => none
    | c :: rest =>
      if c.isDigit && digitsOk rest then
        some (sign * digitsVal ((c :: rest).filter fun d => !(d == '_')))
      else none

/-- The fate of one `comments` entry in `_parse_analysis`. -/
inductive EntryOutcome where
  | dropped
  | fatal
  | kept (f : ReviewFinding)
deriving Repr

/-- One iteration of `_parse_analysis`'s loop: the guarded extraction drops
the entry on `TypeError`/`ValueError` (non-coercible line numbers, `None`),
falsy `path` or `message` drop it, and `.strip()` on a truthy non-string
`message` or `severity` raises out of the whole parse (`AttributeError` is not
among the caught exception types, and the construction is outside the guard). -/
def entryFinding (entry : JVal) : EntryOutcome :=
  match entry with
  | .obj fields =>
    let path := lookupKey fields (str "path")
    match pyInt (lookupKey fields (str "start_line")) with
    | none => .dropped
    | some startLine =>
      let endRes : Option (Option Int) :=
        match lookupKey fields (str "end_line") with
        | .null => some none
        | v => (pyInt v).map some
      match endRes with
      | none => .dropped
      | some endLine =>
        let message := lookupKey fields (str "message")
        let severity := lookupKey fields (str "severity")
        if !path.truthy || !message.truthy then .dropped
        else
          match message with
          | .s mv =>
            match (if severity.truthy then severity else .s []) with
            | .s sv =>
              let sev := pyStrip sv
              .kept ⟨path, startLine, endLine, pyStrip mv,
                if sev.isEmpty then none else some sev⟩
            | _ => .fatal
          | _ => .fatal
  | _ => .fatal

/-- The loop over `comments_data`, short-circuiting on a fatal entry. -/
def processEntries : List JVal → Except Unit (List ReviewFinding)
  | [] => .ok []
  | entry :: rest =>
    match entryFinding entry with
    | .fatal => .error ()
    | .dropped => processEntries rest
    | .kept f => (processEntries rest).map (f :: ·)

/-- `_parse_analysis` after `json.loads` has produced `data`. An `Except`
error is an exception escaping the function (caught in `analyze` as a generic
parse failure). -/
def parse_analysis_data (data : JVal) : Except Unit ReviewAnalysis := do
  let commentsData := pyOr (← pyGet data (str "comments")) (.arr [])
  let entries ← pyIter commentsData
  let findings ← processEntries entries
  let summary := match ← pyGet data (str "summary") with
    | .s v => some (pyStrip v)
    | _ => none
  return { comments := findings, summary := summary }

/-- `analyze()` from the moment `_poll_for_response` has returned
(`jules_client.py` lines 87–106): a falsy raw response is an empty
`ReviewAnalysis`, a parse exception or a `None` parse is a fatal
`JulesAPIError`. The string-level `_parse_analysis` (which `json.loads`-es
the fragment first) enters as the `parse` parameter. -/
def analyzeResultStage (parse : Str → Except Unit (Option ReviewAnalysis)) :
    Option Str → Except PollError ReviewAnalysis
  | none => .ok {}
  | some s =>
    if s.isEmpty then .ok {}
    else
      match parse s with
      | .error _ => .error (.julesError (str "Unable to parse Jules response into review findings."))
      | .ok none => .error (.julesError (str "Unable to parse Jules response into review findings."))
      | .ok (some a) => .ok a

/-! ### `_build_prompt` and `_format_files_for_prompt` -/

structure FilePatch where
  path : Str
  status : Str
  additions : Int
  deletions : Int
  patch : Option Str := none
deriving Repr

structure PushReviewContext where
  repository : Str
  installation_id : Int
  ref : Option Str
  before : Option Str
  after : Option Str
  commits : List Str := []
  files : List FilePatch := []
  compare_url : Option Str := none
deriving Repr

structure PullRequestReviewContext where
  repository : Str
  installation_id : Int
  pull_number : Int
  title : Option Str
  head_sha : Option Str
  base_sha : Option Str
  head_ref : Option Str := none
  files : List FilePatch := []
  url : Option Str := none
deriving Repr

inductive ReviewContext where
  | push (c : PushReviewContext)
  | pullRequest (c : PullRequestReviewContext)
deriving Repr

def ReviewContext.files : ReviewContext → List FilePatch
  | .push c => c.files
  | .pullRequest c => c.files

/-- f-string rendering of an optional string (`str(None)` is `"None"`). -/
def pyStrOpt : Option Str → Str
  | some s => s
  | none => str "None"

/-- Python `sep.join(parts)`. -/
def joinSep (sep : Str) : List Str → Str
  | [] => []
  | [x] => x
  | x :: rest => x ++ sep ++ joinSep sep rest

/-- The per-file patch excerpt: `file.patch or "(no patch available)"`, cut at
`max_patch_chars` with an explicit truncation marker. -/
def sectionPatch (file : FilePatch) (max_patch_chars : Nat) : Str :=
  let patch := match file.patch with
    | some p => if p.isEmpty then str "(no patch available)" else p
    | none => str "(no patch available)"
  if patch.length > max_patch_chars then patch.take max_patch_chars ++ str "\n... (truncated)"
  else patch

/-- One file section of `_format_files_for_prompt`. -/
def fileSection (index : Nat) (file : FilePatch) (max_patch_chars : Nat) : Str :=
  str "### File " ++ (toString (index + 1)).data ++ str ": " ++ file.path ++
    str "\nStatus: " ++ file.status ++ str "\nPatch:\n" ++ sectionPatch file max_patch_chars

/-- `_format_files_for_prompt`: the first `max_files` files as sections, a
truncation marker when files were cut, joined by blank lines. -/
def format_files_for_prompt (context : ReviewContext) (max_files : Nat := 15)
    (max_patch_chars : Nat := 4000) : Str :=
  let files := context.files
  let sections := (files.take max_files).enum.map
    fun iv => fileSection iv.1 iv.2 max_patch_chars
  let sections :=
    if files.length > max_files then
      sections ++ [str "(Truncated to " ++ (toString max_files).data ++
        str " files of " ++ (toString files.length).data ++ str " total)"]
    else sections
  joinSep (str "\n\n") sections

/-- The fixed reviewer instructions (braces escaped as text). -/
def promptInstructions : Str :=
  str "You are an automated code reviewer. Analyze the provided Git diff patches and return actionable findings. Respond *only* with valid JSON matching this schema:\n\x7b\n  \"summary\": string,\n  \"comments\": [\n    \x7b\n      \"path\": string,\n      \"start_line\": integer,\n      \"end_line\": integer|null,\n      \"message\": string,\n      \"severity\": one of [\"critical\", \"major\", \"minor\", \"info\"]\n    \x7d\n  ]\n\x7d\nFocus on bugs, security issues, or major regressions. Omit stylistic nitpicks."

/-- The variant-specific context header of `_build_prompt`. -/
def promptHeader : ReviewContext → Str
  | .pullRequest c =>
    str "Repository: " ++ c.repository ++ str "\nPull Request: #" ++
      (toString c.pull_number).data ++ str " — " ++
      (match c.title with
       | some t => if t.isEmpty then str "untitled" else t
       | none => str "untitled") ++
      str "\nHead SHA: " ++ pyStrOpt c.head_sha ++ str " | Base SHA: " ++
      pyStrOpt c.base_sha ++ str "\n"
  | .push c =>
    let commits :=
      if c.commits.isEmpty then str "(no commit list)"
      else joinSep (str ", ") c.commits
    str "Repository: " ++ c.repository ++ str "\nRef: " ++ pyStrOpt c.ref ++
      str "\nAfter: " ++ pyStrOpt c.after ++ str " | Before: " ++ pyStrOpt c.before ++
      str "\nCommits: " ++ commits ++ str "\n"

/-- `_build_prompt`: instructions, context header, file sections, stripped. -/
def build_prompt (context : ReviewContext) : Str :=
  pyStrip (promptInstructions ++ str "\n\nContext:\n" ++ promptHeader context ++
    str "\nDiffs:\n" ++ format_files_for_prompt context)

end Jules

/-! ## Proof-support definitions -/

/-- The strings `ps` occur in `s`, in order, as disjoint substrings. -/
def containsInOrder (s : Str) : List Str → Prop
  | [] => True
  | p :: ps => ∃ pre suf, s = pre ++ (p ++ suf) ∧ containsInOrder suf ps

/-- The finding an entry contributes, when it is kept. -/
def keptFinding (e : JVal) : Option Jules.ReviewFinding :=
  match Jules.entryFinding e with
  | .kept f => some f
  | _ => none

/-! # Theorems — shared helper lemmas -/

theorem build_github_signature_ne_nil (secret : Str) (payload : Bytes) :
    build_github_signature secret payload ≠ [] := by
  intro h
  have hl := congrArg List.length h
  rw [build_github_signature, List.length_append] at hl
  have h7 : (str "sha256=").length = 7 := rfl
  rw [h7, List.length_nil] at hl
  omega

theorem verify_github_signature_self (secret : Str) (payload : Bytes) :
    verify_github_signature secret payload (some (build_github_signature secret payload)) = true := by
  have hne := build_github_signature_ne_nil secret payload
  simp only [verify_github_signature, List.isEmpty_iff, if_neg hne, compareDigest,
    decide_eq_true_eq]

/-! ## C5 — signature verification -/

/-- C5: `verify_github_signature` returns `True` exactly when the header is
present and equal to `"sha256="` followed by the hex HMAC-SHA256 of the
payload under the secret; a missing (`None` or empty) header yields `False`,
and any differing computed signature yields `False`. -/
theorem verify_github_signature_correct (secret : Str) (payload : Bytes) (sig : Option Str) :
    (verify_github_signature secret payload sig = true ↔
        sig = some (str "sha256=" ++ hexOfBytes (hmacSha256 (utf8Encode secret) payload)))
    ∧ verify_github_signature secret payload none = false
    ∧ verify_github_signature secret payload (some []) = false := by
  refine ⟨?_, rfl, rfl⟩
  have hb : build_github_signature secret payload =
      str "sha256=" ++ hexOfBytes (hmacSha256 (utf8Encode secret) payload) := rfl
  cases sig with
  | none => simp [verify_github_signature]
  | some s =>
    by_cases hs : s.isEmpty
    · rw [List.isEmpty_iff] at hs
      subst hs
      simp only [verify_github_signature, List.isEmpty_nil, if_true, Option.some.injEq]
      constructor
      · intro h; cases h
      · intro h
        exact absurd (hb ▸ h.symm) (build_github_signature_ne_nil secret payload)
    · simp only [verify_github_signature, compareDigest, Option.some.injEq, if_neg hs,
        decide_eq_true_eq, ← hb]
      exact eq_comm

/-! ## C1 — order of signature verification vs. header presence checks -/

/-- C1 counterexample: a request whose `X-Hub-Signature-256` fails
verification but whose `X-GitHub-Event` header is missing receives a 400 for
the missing header, not the 401 the claim requires — the header presence
checks run before signature verification. -/
theorem webhook_missing_event_beats_bad_signature :
    (Webhook.receive_webhook (fun _ => none)
        { settings := some ⟨str "secret"⟩, deliveryId := some (str "d1"), event := none,
          signature := some (str "bad"), rawBody := [], now := 0, enqueueFails := false }
        []).response = .httpError 400 (str "Missing X-GitHub-Event header")
    ∧ verify_github_signature (str "secret") [] (some (str "bad")) = false := by
  exact ⟨rfl, rfl⟩

/-- C1 (amended): in `receive_webhook` the presence checks for
`X-GitHub-Delivery` and then `X-GitHub-Event` precede signature verification:
a missing header yields 400 even when the signature would fail, and when both
headers are present a failing signature yields 401 with nothing enqueued and
the cache untouched. -/
theorem webhook_header_checks_precede_signature
    (decodeJson : Bytes → Option JVal) (req : Webhook.WebhookRequest)
    (cache : Webhook.DeliveryCache) (creds : Webhook.Credentials)
    (hset : req.settings = some creds) :
    (Webhook.headerFalsy req.deliveryId = true →
      Webhook.receive_webhook decodeJson req cache =
        ⟨.httpError 400 (str "Missing X-GitHub-Delivery header"), cache, []⟩)
    ∧ (Webhook.headerFalsy req.deliveryId = false → Webhook.headerFalsy req.event = true →
      Webhook.receive_webhook decodeJson req cache =
        ⟨.httpError 400 (str "Missing X-GitHub-Event header"), cache, []⟩)
    ∧ (Webhook.headerFalsy req.deliveryId = false → Webhook.headerFalsy req.event = false →
      verify_github_signature creds.github_webhook_secret req.rawBody req.signature = false →
      Webhook.receive_webhook decodeJson req cache =
        ⟨.httpError 401 (str "Invalid signature"), cache, []⟩) := by
  unfold Webhook.receive_webhook
  rw [hset]
  refine ⟨fun h1 => ?_, fun h1 h2 => ?_, fun h1 h2 h3 => ?_⟩
  · simp [h1]
  · simp [h1, h2]
  · simp [h1, h2, h3]

/-- C1 witness: a concrete two-headers-present request with an absent
signature header is rejected 401. -/
theorem webhook_header_checks_precede_signature_witness :
    Webhook.receive_webhook (fun _ => none)
        { settings := some ⟨str "s"⟩, deliveryId := some (str "d"), event := some (str "push"),
          signature := none, rawBody := [], now := 0, enqueueFails := false } [] =
      ⟨.httpError 401 (str "Invalid signature"), [], []⟩ :=
  (webhook_header_checks_precede_signature (fun _ => none)
    { settings := some ⟨str "s"⟩, deliveryId := some (str "d"), event := some (str "push"),
      signature := none, rawBody := [], now := 0, enqueueFails := false }
    [] ⟨str "s"⟩ rfl).2.2 rfl rfl rfl

/-! ## C8 — installation-token cache -/

/-- C8 counterexample: a freshly fetched token is returned without any
`is_active` check, so `get_installation_token` can hand out a token that is
already inactive (here: expiry 0 at time 100). -/
theorem get_installation_token_hands_out_stale_fetch :
    (GitHubClient.get_installation_token [] 1 100
        (.ok ⟨str "tok", 0, none⟩)).1 = .ok ⟨str "tok", 0, none⟩
    ∧ GitHubClient.InstallationToken.is_active ⟨str "tok", 0, none⟩ 100 = false := by
  refine ⟨rfl, ?_⟩
  simp only [GitHubClient.InstallationToken.is_active, decide_eq_false_iff_not, not_lt]
  norm_num

/-- C8 (amended): a cached token is reused exactly while `is_active()` holds
(returned unchanged with the cache untouched); otherwise the freshly fetched
token is stored and returned without an activity check — so every token handed
out is either an active cached one or the fetch result itself. -/
theorem get_installation_token_spec (cache : GitHubClient.TokenCache)
    (id : Nat) (now : ℚ)
    (fetched : Except GitHubClient.GitHubAPIError GitHubClient.InstallationToken) :
    (∀ t, (GitHubClient.get_installation_token cache id now fetched).1 = .ok t →
        t.is_active now = true ∨ fetched = .ok t)
    ∧ (∀ t, GitHubClient.tokenCacheGet cache id = some t → t.is_active now = true →
        GitHubClient.get_installation_token cache id now fetched = (.ok t, cache))
    ∧ (∀ t, GitHubClient.tokenCacheGet cache id = some t → t.is_active now = false →
        GitHubClient.get_installation_token cache id now fetched =
          (fetched, match fetched with
            | .error _ => cache
            | .ok tok => GitHubClient.tokenCacheSet id tok cache))
    ∧ (GitHubClient.tokenCacheGet cache id = none →
        GitHubClient.get_installation_token cache id now fetched =
          (fetched, match fetched with
            | .error _ => cache
            | .ok tok => GitHubClient.tokenCacheSet id tok cache)) := by
  refine ⟨?_, ?_, ?_, ?_⟩
  · intro t ht
    unfold GitHubClient.get_installation_token at ht
    cases hg : GitHubClient.tokenCacheGet cache id with
    | none =>
      rw [hg] at ht
      cases fetched with
      | error e => simp at ht
      | ok tok => simp at ht; right; rw [ht]
    | some cached =>
      rw [hg] at ht
      by_cases ha : cached.is_active now
      · simp [ha] at ht
        left; rw [← ht]; exact ha
      · rw [Bool.not_eq_true] at ha
        cases fetched with
        | error e => simp [ha] at ht
        | ok tok => simp [ha] at ht; right; rw [ht]
  · intro t hg ha
    unfold GitHubClient.get_installation_token
    rw [hg]
    simp [ha]
  · intro t hg ha
    unfold GitHubClient.get_installation_token
    rw [hg]
    cases fetched <;> simp [ha]
  · intro hg
    unfold GitHubClient.get_installation_token
    rw [hg]
    cases fetched <;> rfl

/-- C8 witness: an active cached token (expiry 1000, now 0) is reused. -/
theorem get_installation_token_spec_witness :
    GitHubClient.get_installation_token [(1, ⟨str "tok", 1000, none⟩)] 1 0
        (.error ⟨str "down", 500⟩) =
      (.ok ⟨str "tok", 1000, none⟩, [(1, ⟨str "tok", 1000, none⟩)]) :=
  (get_installation_token_spec [(1, ⟨str "tok", 1000, none⟩)] 1 0
    (.error ⟨str "down", 500⟩)).2.1 ⟨str "tok", 1000, none⟩ rfl
    (by simp only [GitHubClient.InstallationToken.is_active, decide_eq_true_eq]; norm_num)

/-! ## C4 — unsupported pull_request actions are ignored -/

/-- C4 counterexample: a well-signed `pull_request` delivery whose `action`
field is the JSON array `[]` is not answered "ignored": Python evaluates
`action not in _supported_pr_actions` against a set of strings, an unhashable
action raises `TypeError` out of the membership test, and neither
`except IgnoreEventError` nor `except ValueError` catches it, so the handler
surfaces a 500. Nothing is enqueued on that path either. -/
theorem pull_request_unhashable_action_500 :
    ((Webhook.receive_webhook (fun _ => some (.obj [(str "action", .arr [])]))
        { settings := some ⟨str "s"⟩, deliveryId := some (str "d"),
          event := some (str "pull_request"),
          signature := some (build_github_signature (str "s") []), rawBody := [], now := 0,
          enqueueFails := false } []).response = .httpError 500 (str "Internal Server Error"))
    ∧ ((Webhook.receive_webhook (fun _ => some (.obj [(str "action", .arr [])]))
        { settings := some ⟨str "s"⟩, deliveryId := some (str "d"),
          event := some (str "pull_request"),
          signature := some (build_github_signature (str "s") []), rawBody := [], now := 0,
          enqueueFails := false } []).enqueued = []) := by
  have hdup : (Webhook.is_duplicate (str "d") 0 []).1 = false := by
    simp [Webhook.is_duplicate, Webhook.prune_delivery_cache]
  have hd : Webhook.headerFalsy (some (str "d")) = false := rfl
  have he : Webhook.headerFalsy (some (str "pull_request")) = false := rfl
  have hb : Webhook.build_job_payload (str "pull_request") (.obj [(str "action", .arr [])]) =
      .error .uncaught := by
    rw [Webhook.build_job_payload, if_neg (by decide), if_pos rfl]
    rfl
  unfold Webhook.receive_webhook
  simp only [Option.getD_some, hd, he, verify_github_signature_self, hdup, hb,
    Bool.false_eq_true, if_false, eq_self_iff_true, not_true, if_true]
  exact ⟨by simp, by simp⟩

/-- C4 (amended): a `pull_request` webhook whose payload object carries a
hashable action outside the supported set — any non-member string, or a null,
boolean or numeric action, i.e. `actionSupported` answers `.ok false` — is
answered with status "ignored" and nothing is enqueued, whatever else the
payload holds (the action filter runs before any required-field validation,
so a missing `installation.id`, `repository.full_name` or
`pull_request.number` never turns this into a 400). An unhashable action — a
JSON array or object — instead blows up the set-membership test itself and
yields a 500, shown by the counterexample. -/
theorem pull_request_unsupported_action_is_ignored
    (decodeJson : Bytes → Option JVal) (req : Webhook.WebhookRequest)
    (cache : Webhook.DeliveryCache) (creds : Webhook.Credentials)
    (fields : List (Str × JVal))
    (hset : req.settings = some creds)
    (hd : Webhook.headerFalsy req.deliveryId = false)
    (he : req.event = some (str "pull_request"))
    (hsig : verify_github_signature creds.github_webhook_secret req.rawBody req.signature = true)
    (hdec : decodeJson req.rawBody = some (.obj fields))
    (hact : Webhook.actionSupported (lookupKey fields (str "action")) = .ok false) :
    (∃ reason, (Webhook.receive_webhook decodeJson req cache).response =
        .body (str "ignored") (some reason))
    ∧ (Webhook.receive_webhook decodeJson req cache).enqueued = [] := by
  have he' : Webhook.headerFalsy req.event = false := by rw [he]; rfl
  have hne : ¬ (str "pull_request" = str "push") := by decide
  unfold Webhook.receive_webhook
  rw [hset]
  simp only [hd, he', hsig, hdec, he, Bool.false_eq_true, if_false, not_true, not_false_iff,
    if_true, Option.getD_some]
  by_cases hdup : (Webhook.is_duplicate (req.deliveryId.getD []) req.now cache).1
  · simp only [hdup, if_true]
    exact ⟨⟨str "duplicate", rfl⟩, rfl⟩
  · rw [Bool.not_eq_true] at hdup
    simp only [hdup, Bool.false_eq_true, if_false]
    rw [Webhook.build_job_payload, if_neg hne, if_pos rfl]
    rw [Webhook.build_pull_request_job]
    simp only [jvalGet, bind, Except.bind, hact, Bool.false_eq_true,
      not_false_iff, if_true, Except.map]
    exact ⟨⟨_, rfl⟩, rfl⟩

/-- C4 witness: a concrete well-signed `pull_request` delivery whose action is
"closed" gets the ignore answer and enqueues nothing. -/
theorem pull_request_unsupported_action_is_ignored_witness :
    (∃ reason, (Webhook.receive_webhook (fun _ => some (.obj [(str "action", .s (str "closed"))]))
        { settings := some ⟨str "s"⟩, deliveryId := some (str "d"),
          event := some (str "pull_request"),
          signature := some (build_github_signature (str "s") []), rawBody := [], now := 0,
          enqueueFails := false } []).response = .body (str "ignored") (some reason))
    ∧ (Webhook.receive_webhook (fun _ => some (.obj [(str "action", .s (str "closed"))]))
        { settings := some ⟨str "s"⟩, deliveryId := some (str "d"),
          event := some (str "pull_request"),
          signature := some (build_github_signature (str "s") []), rawBody := [], now := 0,
          enqueueFails := false } []).enqueued = [] :=
  pull_request_unsupported_action_is_ignored
    (fun _ => some (.obj [(str "action", .s (str "closed"))]))
    { settings := some ⟨str "s"⟩, deliveryId := some (str "d"),
      event := some (str "pull_request"),
      signature := some (build_github_signature (str "s") []), rawBody := [], now := 0,
      enqueueFails := false }
    [] ⟨str "s"⟩ [(str "action", .s (str "closed"))] rfl rfl rfl
    (verify_github_signature_self (str "s") []) rfl rfl

/-! ## Webhook pipeline helper lemmas (for C2 and C3) -/

theorem mem_mark_delivery_self (d : Str) (now : ℚ) (l : Webhook.DeliveryCache) :
    (d, now) ∈ Webhook.mark_delivery d now l := by
  induction l with
  | nil => exact List.mem_singleton_self _
  | cons kv rest ih =>
    simp only [Webhook.mark_delivery]
    by_cases h : kv.1 = d
    · simp only [if_pos h]
      exact h ▸ List.mem_cons_self _ _
    · simp only [if_neg h]
      exact List.mem_cons_of_mem _ ih

theorem mark_delivery_of_no_key (d : Str) (now : ℚ) (l : Webhook.DeliveryCache)
    (h : ∀ kv ∈ l, kv.1 ≠ d) :
    Webhook.mark_delivery d now l = l ++ [(d, now)] := by
  induction l with
  | nil => rfl
  | cons kv rest ih =>
    simp only [Webhook.mark_delivery, if_neg (h kv (List.mem_cons_self _ _)), List.cons_append,
      List.cons.injEq, true_and]
    exact ih fun kv hm => h kv (List.mem_cons_of_mem _ hm)

theorem mem_of_mem_prune (now : ℚ) (l : Webhook.DeliveryCache) :
    ∀ e ∈ Webhook.prune_delivery_cache now l, e ∈ l :=
  fun _ he => List.mem_filter.mp he |>.1

/-- Gate facts plus an accepted path determine the whole outcome. -/
theorem receive_webhook_run
    (decodeJson : Bytes → Option JVal) (req : Webhook.WebhookRequest)
    (cache : Webhook.DeliveryCache) (creds : Webhook.Credentials) (payload : JVal)
    (jp : Webhook.JobPayload)
    (hset : req.settings = some creds)
    (hd : Webhook.headerFalsy req.deliveryId = false)
    (he : Webhook.headerFalsy req.event = false)
    (hsig : verify_github_signature creds.github_webhook_secret req.rawBody req.signature = true)
    (hdec : decodeJson req.rawBody = some payload)
    (hdup : (Webhook.is_duplicate (req.deliveryId.getD []) req.now cache).1 = false)
    (hbuild : Webhook.build_job_payload (req.event.getD []) payload = .ok jp)
    (henq : req.enqueueFails = false) :
    Webhook.receive_webhook decodeJson req cache =
      ⟨.body (str "accepted") none,
       Webhook.mark_delivery (req.deliveryId.getD []) req.now
         (Webhook.prune_delivery_cache req.now cache),
       [⟨req.deliveryId.getD [], req.event.getD [], jp⟩]⟩ := by
  unfold Webhook.receive_webhook
  rw [hset]
  simp only [hd, he, hsig, hdec, hdup, hbuild, henq, Bool.false_eq_true, if_false, not_true,
    not_false_iff, if_true]
  rfl

/-- Gate facts plus a positive dedupe check give the duplicate answer. -/
theorem receive_webhook_duplicate
    (decodeJson : Bytes → Option JVal) (req : Webhook.WebhookRequest)
    (cache : Webhook.DeliveryCache) (creds : Webhook.Credentials) (payload : JVal)
    (hset : req.settings = some creds)
    (hd : Webhook.headerFalsy req.deliveryId = false)
    (he : Webhook.headerFalsy req.event = false)
    (hsig : verify_github_signature creds.github_webhook_secret req.rawBody req.signature = true)
    (hdec : decodeJson req.rawBody = some payload)
    (hdup : (Webhook.is_duplicate (req.deliveryId.getD []) req.now cache).1 = true) :
    Webhook.receive_webhook decodeJson req cache =
      ⟨.body (str "ignored") (some (str "duplicate")),
       Webhook.prune_delivery_cache req.now cache, []⟩ := by
  unfold Webhook.receive_webhook
  rw [hset]
  simp only [hd, he, hsig, hdec, hdup, Bool.false_eq_true, if_false, not_true,
    not_false_iff, if_true]
  rfl

/-- An accepted response can only come from the fully successful path. -/
theorem receive_webhook_accepted_inv
    (decodeJson : Bytes → Option JVal) (req : Webhook.WebhookRequest)
    (cache : Webhook.DeliveryCache)
    (h : (Webhook.receive_webhook decodeJson req cache).response = .body (str "accepted") none) :
    ∃ creds payload jp,
      req.settings = some creds ∧
      Webhook.headerFalsy req.deliveryId = false ∧
      Webhook.headerFalsy req.event = false ∧
      verify_github_signature creds.github_webhook_secret req.rawBody req.signature = true ∧
      decodeJson req.rawBody = some payload ∧
      (Webhook.is_duplicate (req.deliveryId.getD []) req.now cache).1 = false ∧
      Webhook.build_job_payload (req.event.getD []) payload = .ok jp ∧
      req.enqueueFails = false := by
  unfold Webhook.receive_webhook at h
  cases hset : req.settings with
  | none => rw [hset] at h; exact absurd h (by simp)
  | some creds =>
    rw [hset] at h
    by_cases hd : Webhook.headerFalsy req.deliveryId
    · simp only [hd, if_true] at h
      exact absurd h (by simp)
    · rw [Bool.not_eq_true] at hd
      simp only [hd, Bool.false_eq_true, if_false] at h
      by_cases he : Webhook.headerFalsy req.event
      · simp only [he, if_true] at h
        exact absurd h (by simp)
      · rw [Bool.not_eq_true] at he
        simp only [he, Bool.false_eq_true, if_false] at h
        by_cases hsig :
            verify_github_signature creds.github_webhook_secret req.rawBody req.signature
        · have hc : ¬¬(verify_github_signature creds.github_webhook_secret req.rawBody
              req.signature = true) := fun hn => hn hsig
          rw [if_neg hc] at h
          cases hdec : decodeJson req.rawBody with
          | none => rw [hdec] at h; exact absurd h (by simp)
          | some payload =>
            rw [hdec] at h
            by_cases hdup : (Webhook.is_duplicate (req.deliveryId.getD []) req.now cache).1
            · simp only [hdup, if_true] at h
              injection h with h1 h2
              exact absurd h1 (by decide)
            · rw [Bool.not_eq_true] at hdup
              simp only [hdup, Bool.false_eq_true, if_false] at h
              cases hbuild : Webhook.build_job_payload (req.event.getD []) payload with
              | error err =>
                rw [hbuild] at h
                cases err with
                | ignoreEvent msg =>
                  injection h with h1 h2
                  exact absurd h1 (by decide)
                | valueError msg => exact Webhook.WebhookResponse.noConfusion h
                | uncaught => exact Webhook.WebhookResponse.noConfusion h
              | ok jp =>
                rw [hbuild] at h
                by_cases henq : req.enqueueFails
                · simp only [henq, if_true] at h
                  exact Webhook.WebhookResponse.noConfusion h
                · rw [Bool.not_eq_true] at henq
                  exact ⟨creds, payload, jp, rfl, hd, he, hsig, rfl, hdup, hbuild, henq⟩
        · rw [Bool.not_eq_true] at hsig
          have hc : ¬(verify_github_signature creds.github_webhook_secret req.rawBody
              req.signature = true) := by rw [hsig]; exact Bool.false_ne_true
          rw [if_pos hc] at h
          exact Webhook.WebhookResponse.noConfusion h

/-! ## C2 — duplicate deliveries within / after the TTL -/

/-- C2: once a delivery id has been accepted and enqueued, re-delivering it
(same request, later wall-clock `now₂`) within the 3600-second TTL answers
`{"status": "ignored", "reason": "duplicate"}` and enqueues nothing, while
re-delivering it after the TTL has expired is treated as new and accepted
(enqueueing exactly one job) again. -/
theorem duplicate_delivery_ttl
    (decodeJson : Bytes → Option JVal) (r1 : Webhook.WebhookRequest)
    (cache0 : Webhook.DeliveryCache) (now2 : ℚ)
    (h1 : (Webhook.receive_webhook decodeJson r1 cache0).response =
      .body (str "accepted") none) :
    (now2 - r1.now ≤ Webhook.DELIVERY_TTL_SECONDS →
      (Webhook.receive_webhook decodeJson { r1 with now := now2 }
          (Webhook.receive_webhook decodeJson r1 cache0).cache).response =
        .body (str "ignored") (some (str "duplicate"))
      ∧ (Webhook.receive_webhook decodeJson { r1 with now := now2 }
          (Webhook.receive_webhook decodeJson r1 cache0).cache).enqueued = [])
    ∧ (Webhook.DELIVERY_TTL_SECONDS < now2 - r1.now →
      (Webhook.receive_webhook decodeJson { r1 with now := now2 }
          (Webhook.receive_webhook decodeJson r1 cache0).cache).response =
        .body (str "accepted") none
      ∧ (Webhook.receive_webhook decodeJson { r1 with now := now2 }
          (Webhook.receive_webhook decodeJson r1 cache0).cache).enqueued.length = 1) := by
  obtain ⟨creds, payload, jp, hset, hd, he, hsig, hdec, hdup, hbuild, henq⟩ :=
    receive_webhook_accepted_inv decodeJson r1 cache0 h1
  have hrun := receive_webhook_run decodeJson r1 cache0 creds payload jp hset hd he hsig hdec
    hdup hbuild henq
  have hcache : (Webhook.receive_webhook decodeJson r1 cache0).cache =
      Webhook.mark_delivery (r1.deliveryId.getD []) r1.now
        (Webhook.prune_delivery_cache r1.now cache0) := by rw [hrun]
  rw [hcache]
  constructor
  · intro hle
    have hmem : (r1.deliveryId.getD [], r1.now) ∈
        Webhook.mark_delivery (r1.deliveryId.getD []) r1.now
          (Webhook.prune_delivery_cache r1.now cache0) :=
      mem_mark_delivery_self _ _ _
    have hkeep : (r1.deliveryId.getD [], r1.now) ∈
        Webhook.prune_delivery_cache now2
          (Webhook.mark_delivery (r1.deliveryId.getD []) r1.now
            (Webhook.prune_delivery_cache r1.now cache0)) := by
      refine List.mem_filter.mpr ⟨hmem, ?_⟩
      simp only [Bool.not_eq_true', decide_eq_false_iff_not, not_lt]
      linarith
    have hdup2 : (Webhook.is_duplicate (r1.deliveryId.getD []) now2
        (Webhook.mark_delivery (r1.deliveryId.getD []) r1.now
          (Webhook.prune_delivery_cache r1.now cache0))).1 = true := by
      simp only [Webhook.is_duplicate, List.any_eq_true]
      exact ⟨(r1.deliveryId.getD [], r1.now), hkeep, by simp⟩
    have hdone := receive_webhook_duplicate decodeJson { r1 with now := now2 }
      (Webhook.mark_delivery (r1.deliveryId.getD []) r1.now
        (Webhook.prune_delivery_cache r1.now cache0)) creds payload hset hd he hsig hdec hdup2
    rw [hdone]
    exact ⟨rfl, rfl⟩
  · intro hlt
    have hnokey : ∀ kv ∈ Webhook.prune_delivery_cache r1.now cache0,
        kv.1 ≠ r1.deliveryId.getD [] := by
      intro kv hkv hk
      have hany : (Webhook.prune_delivery_cache r1.now cache0).any
          (fun kv => kv.1 = r1.deliveryId.getD []) = false := by
        simpa [Webhook.is_duplicate] using hdup
      rw [List.any_eq_false] at hany
      exact absurd (by simpa using hk) (hany kv hkv)
    have hmark : Webhook.mark_delivery (r1.deliveryId.getD []) r1.now
          (Webhook.prune_delivery_cache r1.now cache0) =
        Webhook.prune_delivery_cache r1.now cache0 ++ [(r1.deliveryId.getD [], r1.now)] :=
      mark_delivery_of_no_key _ _ _ hnokey
    have hcond : (!decide ((r1.now : ℚ) < now2 - Webhook.DELIVERY_TTL_SECONDS)) = false := by
      simp only [Bool.not_eq_false', decide_eq_true_eq]
      linarith
    have hprune2 : Webhook.prune_delivery_cache now2
          (Webhook.mark_delivery (r1.deliveryId.getD []) r1.now
            (Webhook.prune_delivery_cache r1.now cache0)) =
        Webhook.prune_delivery_cache now2 (Webhook.prune_delivery_cache r1.now cache0) := by
      rw [hmark]
      simp only [Webhook.prune_delivery_cache, List.filter_append, List.filter_cons,
        List.filter_nil, hcond, Bool.false_eq_true, if_false, List.append_nil]
    have hdup2 : (Webhook.is_duplicate (r1.deliveryId.getD []) now2
        (Webhook.mark_delivery (r1.deliveryId.getD []) r1.now
          (Webhook.prune_delivery_cache r1.now cache0))).1 = false := by
      simp only [Webhook.is_duplicate]
      rw [List.any_eq_false]
      intro kv hkv
      rw [hprune2] at hkv
      have hkv' := mem_of_mem_prune now2 (Webhook.prune_delivery_cache r1.now cache0) kv hkv
      simpa using hnokey kv hkv'
    have hdone := receive_webhook_run decodeJson { r1 with now := now2 }
      (Webhook.mark_delivery (r1.deliveryId.getD []) r1.now
        (Webhook.prune_delivery_cache r1.now cache0)) creds payload jp hset hd he hsig hdec
      hdup2 hbuild henq
    rw [hdone]
    exact ⟨rfl, rfl⟩

/-- C2 witness: a concrete accepted push delivery, re-delivered 100 seconds
later, is answered "ignored"/"duplicate". -/
theorem duplicate_delivery_ttl_witness :
    ((100 : ℚ) - 0 ≤ Webhook.DELIVERY_TTL_SECONDS)
    ∧ (Webhook.receive_webhook
        (fun _ => some (.obj [(str "installation", .obj [(str "id", .num 7)]),
          (str "repository", .obj [(str "full_name", .s (str "o/r"))])]))
        { settings := some ⟨str "s"⟩, deliveryId := some (str "d1"),
          event := some (str "push"),
          signature := some (build_github_signature (str "s") []), rawBody := [], now := 100,
          enqueueFails := false }
        (Webhook.receive_webhook
          (fun _ => some (.obj [(str "installation", .obj [(str "id", .num 7)]),
            (str "repository", .obj [(str "full_name", .s (str "o/r"))])]))
          { settings := some ⟨str "s"⟩, deliveryId := some (str "d1"),
            event := some (str "push"),
            signature := some (build_github_signature (str "s") []), rawBody := [], now := 0,
            enqueueFails := false } []).cache).response =
      .body (str "ignored") (some (str "duplicate")) := by
  have h1 : (Webhook.receive_webhook
      (fun _ => some (.obj [(str "installation", .obj [(str "id", .num 7)]),
        (str "repository", .obj [(str "full_name", .s (str "o/r"))])]))
      { settings := some ⟨str "s"⟩, deliveryId := some (str "d1"),
        event := some (str "push"),
        signature := some (build_github_signature (str "s") []), rawBody := [], now := 0,
        enqueueFails := false } []).response = .body (str "accepted") none := by
    rw [receive_webhook_run
      (fun _ => some (.obj [(str "installation", .obj [(str "id", .num 7)]),
        (str "repository", .obj [(str "full_name", .s (str "o/r"))])]))
      { settings := some ⟨str "s"⟩, deliveryId := some (str "d1"),
        event := some (str "push"),
        signature := some (build_github_signature (str "s") []), rawBody := [], now := 0,
        enqueueFails := false }
      [] ⟨str "s"⟩
      (.obj [(str "installation", .obj [(str "id", .num 7)]),
        (str "repository", .obj [(str "full_name", .s (str "o/r"))])])
      (.push ⟨.num 7, ⟨.null, .s (str "o/r"), .null, .null⟩, .null, .null, .null, [],
        .obj [], .null⟩)
      rfl rfl rfl (verify_github_signature_self (str "s") []) rfl rfl rfl rfl]
  refine ⟨by norm_num [Webhook.DELIVERY_TTL_SECONDS], ?_⟩
  exact ((duplicate_delivery_ttl _ _ [] 100 h1).1
    (by norm_num [Webhook.DELIVERY_TTL_SECONDS])).1

/-! ## C3 — the dedup cache is written only after a successful enqueue -/

/-- C3 counterexample: an ignored event leaves the handler without enqueueing,
yet the dedupe check has already pruned an expired entry, so the cache is not
literally unchanged. -/
theorem webhook_ignored_prunes_cache :
    (Webhook.receive_webhook (fun _ => some .null)
        { settings := some ⟨str "s"⟩, deliveryId := some (str "d"), event := some (str "x"),
          signature := some (build_github_signature (str "s") []), rawBody := [], now := 4000,
          enqueueFails := false } [(str "old", 0)]).cache = []
    ∧ (Webhook.receive_webhook (fun _ => some .null)
        { settings := some ⟨str "s"⟩, deliveryId := some (str "d"), event := some (str "x"),
          signature := some (build_github_signature (str "s") []), rawBody := [], now := 4000,
          enqueueFails := false } [(str "old", 0)]).response =
      .body (str "ignored") (some (str "Event \'x\' is not handled."))
    ∧ ([] : Webhook.DeliveryCache) ≠ [(str "old", 0)] := by
  have hprune : Webhook.prune_delivery_cache 4000 [(str "old", 0)] = [] := by
    have hc : ((0 : ℚ) < 4000 - Webhook.DELIVERY_TTL_SECONDS) := by
      norm_num [Webhook.DELIVERY_TTL_SECONDS]
    simp [Webhook.prune_delivery_cache, hc]
  have hdup : (Webhook.is_duplicate (str "d") 4000 [(str "old", 0)]).1 = false := by
    simp [Webhook.is_duplicate, hprune]
  have hd : Webhook.headerFalsy (some (str "d")) = false := rfl
  have he : Webhook.headerFalsy (some (str "x")) = false := rfl
  have hb : Webhook.build_job_payload (str "x") .null =
      .error (.ignoreEvent (str "Event \'x\' is not handled.")) := by
    rw [Webhook.build_job_payload, if_neg (by decide), if_neg (by decide)]
    rfl
  have hsnd : (Webhook.is_duplicate (str "d") 4000 [(str "old", 0)]).2 = [] := by
    simp [Webhook.is_duplicate, hprune]
  unfold Webhook.receive_webhook
  simp only [Option.getD_some, hd, he, verify_github_signature_self, hdup, hb, hsnd,
    Bool.false_eq_true, if_false, eq_self_iff_true, not_true, if_true]
  exact ⟨by simp, by simp, by simp⟩

/-- C3 (amended): on every outcome other than "accepted" nothing is enqueued
and no cache entry is added — the cache is either untouched or merely pruned
of expired entries (so an id never seen before is still not treated as a
duplicate later); the request's delivery id is recorded under the request's
timestamp exactly on the accepted path, after the job was enqueued. -/
theorem delivery_marked_only_after_accepted_enqueue
    (decodeJson : Bytes → Option JVal) (req : Webhook.WebhookRequest)
    (cache : Webhook.DeliveryCache) :
    ((Webhook.receive_webhook decodeJson req cache).response ≠ .body (str "accepted") none →
      (Webhook.receive_webhook decodeJson req cache).enqueued = []
      ∧ (∀ e, e ∈ (Webhook.receive_webhook decodeJson req cache).cache → e ∈ cache)
      ∧ ((Webhook.receive_webhook decodeJson req cache).cache = cache ∨
         (Webhook.receive_webhook decodeJson req cache).cache =
           Webhook.prune_delivery_cache req.now cache))
    ∧ ((Webhook.receive_webhook decodeJson req cache).response = .body (str "accepted") none →
      (req.deliveryId.getD [], req.now) ∈ (Webhook.receive_webhook decodeJson req cache).cache
      ∧ (Webhook.receive_webhook decodeJson req cache).enqueued ≠ []) := by
  unfold Webhook.receive_webhook
  cases hset : req.settings with
  | none =>
    exact ⟨fun _ => ⟨by simp, fun e he => he, by simp⟩,
      fun hacc => by simp at hacc⟩
  | some creds =>
    by_cases hd : Webhook.headerFalsy req.deliveryId
    · simp only [hd, if_true]
      exact ⟨fun _ => ⟨by simp, fun e he => he, by simp⟩,
        fun hacc => by simp at hacc⟩
    · rw [Bool.not_eq_true] at hd
      simp only [hd, Bool.false_eq_true, if_false]
      by_cases he : Webhook.headerFalsy req.event
      · simp only [he, if_true]
        exact ⟨fun _ => ⟨by simp, fun e he => he, by simp⟩,
          fun hacc => by simp at hacc⟩
      · rw [Bool.not_eq_true] at he
        simp only [he, Bool.false_eq_true, if_false]
        by_cases hsig :
            verify_github_signature creds.github_webhook_secret req.rawBody req.signature
        · have hc : ¬¬(verify_github_signature creds.github_webhook_secret req.rawBody
              req.signature = true) := fun hn => hn hsig
          rw [if_neg hc]
          cases hdec : decodeJson req.rawBody with
          | none =>
            exact ⟨fun _ => ⟨by simp, fun e he => he, by simp⟩,
              fun hacc => by simp at hacc⟩
          | some payload =>
            by_cases hdup : (Webhook.is_duplicate (req.deliveryId.getD []) req.now cache).1
            · simp only [hdup, if_true]
              refine ⟨fun _ => ⟨by simp, fun e he => ?_, Or.inr rfl⟩, fun hacc => ?_⟩
              · exact mem_of_mem_prune req.now cache e he
              · injection hacc with h1 h2
                exact absurd h1 (by decide)
            · rw [Bool.not_eq_true] at hdup
              simp only [hdup, Bool.false_eq_true, if_false]
              cases hbuild : Webhook.build_job_payload (req.event.getD []) payload with
              | error err =>
                cases err with
                | ignoreEvent msg =>
                  refine ⟨fun _ => ⟨by simp, fun e he => ?_, Or.inr rfl⟩, fun hacc => ?_⟩
                  · exact mem_of_mem_prune req.now cache e he
                  · injection hacc with h1 h2
                    exact absurd h1 (by decide)
                | valueError msg =>
                  exact ⟨fun _ => ⟨by simp, fun e he => mem_of_mem_prune req.now cache e he,
                    Or.inr rfl⟩, fun hacc => by simp at hacc⟩
                | uncaught =>
                  exact ⟨fun _ => ⟨by simp, fun e he => mem_of_mem_prune req.now cache e he,
                    Or.inr rfl⟩, fun hacc => by simp at hacc⟩
              | ok jp =>
                by_cases henq : req.enqueueFails
                · simp only [henq, if_true]
                  exact ⟨fun _ => ⟨by simp, fun e he => mem_of_mem_prune req.now cache e he,
                    Or.inr rfl⟩, fun hacc => by simp at hacc⟩
                · rw [Bool.not_eq_true] at henq
                  simp only [henq, Bool.false_eq_true, if_false]
                  refine ⟨fun hne => absurd rfl hne, fun _ => ⟨?_, by simp⟩⟩
                  exact mem_mark_delivery_self _ _ _
        · rw [Bool.not_eq_true] at hsig
          have hc : ¬(verify_github_signature creds.github_webhook_secret req.rawBody
              req.signature = true) := by rw [hsig]; exact Bool.false_ne_true
          rw [if_pos hc]
          exact ⟨fun _ => ⟨by simp, fun e he => he, by simp⟩,
            fun hacc => by simp at hacc⟩

/-- C3 witness: a concrete 401-rejected request enqueues nothing and adds no
cache entry. -/
theorem delivery_marked_only_after_accepted_enqueue_witness :
    (Webhook.receive_webhook (fun _ => none)
        { settings := some ⟨str "s"⟩, deliveryId := some (str "d"), event := some (str "push"),
          signature := none, rawBody := [], now := 0, enqueueFails := false }
        [(str "old", 2)]).enqueued = []
    ∧ (∀ e, e ∈ (Webhook.receive_webhook (fun _ => none)
        { settings := some ⟨str "s"⟩, deliveryId := some (str "d"), event := some (str "push"),
          signature := none, rawBody := [], now := 0, enqueueFails := false }
        [(str "old", 2)]).cache → e ∈ [(str "old", (2 : ℚ))]) :=
  have h := (delivery_marked_only_after_accepted_enqueue (fun _ => none)
    { settings := some ⟨str "s"⟩, deliveryId := some (str "d"), event := some (str "push"),
      signature := none, rawBody := [], now := 0, enqueueFails := false }
    [(str "old", 2)]).1 (fun hacc => Webhook.WebhookResponse.noConfusion hacc)
  ⟨h.1, h.2.1⟩

/-! ## C6 — 404 handling in the polling loop -/

theorem isPrefixOf_append_self (l t : Str) : l.isPrefixOf (l ++ t) = true := by
  induction l with
  | nil => simp [List.isPrefixOf]
  | cons c cs ih => simp [List.isPrefixOf, ih]

theorem isSubstring_nil (t : Str) : Jules.isSubstring [] t = true := by
  cases t with
  | nil => rfl
  | cons c r => rfl

theorem isSubstring_of_decomp (n pre rest : Str) :
    Jules.isSubstring n (pre ++ (n ++ rest)) = true := by
  induction pre with
  | nil =>
    cases n with
    | nil => simpa using isSubstring_nil rest
    | cons c nrest =>
      show Jules.isSubstring (c :: nrest) ((c :: nrest) ++ rest) = true
      rw [List.cons_append]
      simp only [Jules.isSubstring]
      rw [← List.cons_append, isPrefixOf_append_self]
      exact Bool.true_or _
  | cons p ps ih =>
    rw [List.cons_append]
    simp only [Jules.isSubstring, ih, Bool.or_true]

theorem errorDetailStr_has_404 (detail : Str) :
    Jules.isSubstring (str "404") (Jules.errorDetailStr 404 detail) = true := by
  have hd : Jules.errorDetailStr 404 detail =
      str "Failed to list activities: status=" ++
        (str "404" ++ (str ", detail=" ++ detail)) := by
    rw [Jules.errorDetailStr]
    have h4 : (toString (404 : Nat)).data = str "404" := rfl
    rw [h4, List.append_assoc, List.append_assoc]
  rw [hd]
  exact isSubstring_of_decomp _ _ _

/-- C6: in the polling loop a 404 on an attempt whose index is below
`max_404_retries` (the first three attempts) sleeps the doubling backoff and
retries; a 404 once the index has reached the threshold (the fourth attempt or
later) raises the fatal not-found `JulesAPIError`; and a feed that 404s on the
first three attempts and then serves a page with an extractable JSON fragment
on the fourth makes polling succeed with that fragment. -/
theorem poll_404_retry_and_fatal (feed : Nat → Jules.PollUpstream) :
    (∀ attempts delay attempt sleeps detail,
      attempt < attempts → attempt < Jules.max_404_retries →
      feed attempt = .failure 404 detail →
      Jules.pollStep feed attempts delay attempt sleeps =
        Jules.pollStep feed attempts delay (attempt + 1)
          (sleeps ++ [delay * 2 * ((attempt : ℚ) + 1)]))
    ∧ (∀ attempts delay attempt sleeps detail,
      attempt < attempts → Jules.max_404_retries ≤ attempt →
      feed attempt = .failure 404 detail →
      Jules.pollStep feed attempts delay attempt sleeps =
        (.error (.julesError (Jules.notFoundMsg attempt (Jules.errorDetailStr 404 detail))),
         sleeps))
    ∧ (∀ d0 d1 d2 payload frag,
      feed 0 = .failure 404 d0 → feed 1 = .failure 404 d1 → feed 2 = .failure 404 d2 →
      feed 3 = .success payload → Jules.scanPage payload = .ok (some frag) →
      (Jules.poll_for_response feed).1 = .ok (some frag)) := by
  have hstep : ∀ attempts delay attempt sleeps detail,
      attempt < attempts → attempt < Jules.max_404_retries →
      feed attempt = .failure 404 detail →
      Jules.pollStep feed attempts delay attempt sleeps =
        Jules.pollStep feed attempts delay (attempt + 1)
          (sleeps ++ [delay * 2 * ((attempt : ℚ) + 1)]) := by
    intro attempts delay attempt sleeps detail h1 h2 hfeed
    rw [Jules.pollStep, dif_pos h1, hfeed]
    simp only [errorDetailStr_has_404, Bool.true_or, if_true, h2]
  have hfatal : ∀ attempts delay attempt sleeps detail,
      attempt < attempts → Jules.max_404_retries ≤ attempt →
      feed attempt = .failure 404 detail →
      Jules.pollStep feed attempts delay attempt sleeps =
        (.error (.julesError (Jules.notFoundMsg attempt (Jules.errorDetailStr 404 detail))),
         sleeps) := by
    intro attempts delay attempt sleeps detail h1 h2 hfeed
    rw [Jules.pollStep, dif_pos h1, hfeed]
    simp only [errorDetailStr_has_404, Bool.true_or, if_true, if_neg (Nat.not_lt.mpr h2)]
  refine ⟨hstep, hfatal, ?_⟩
  intro d0 d1 d2 payload frag h0 h1 h2 h3 hscan
  show (Jules.pollStep feed 10 (3 / 2) 0 []).1 = .ok (some frag)
  rw [hstep 10 (3 / 2) 0 [] d0 (by omega) (by decide) h0,
    hstep 10 (3 / 2) 1 _ d1 (by omega) (by decide) h1,
    hstep 10 (3 / 2) 2 _ d2 (by omega) (by decide) h2]
  rw [Jules.pollStep, dif_pos (by omega : 2 + 1 < 10), h3]
  simp only [hscan]

/-- C6 witness: with a concrete feed that 404s three times and then serves an
agent message containing a JSON fragment, polling returns that fragment; with
a feed of nothing but 404s, the fourth attempt raises the fatal error. -/
theorem poll_404_retry_and_fatal_witness :
    (Jules.poll_for_response (fun n => if n < 3 then .failure 404 (str "x")
        else .success (.obj [(str "activities", .arr [.obj
          [(str "originator", .s (str "agent")),
           (str "messages", .arr [.obj [(str "text", .s (str "\x7b\x7d"))]])]])]))).1 =
      .ok (some (str "\x7b\x7d"))
    ∧ Jules.pollStep (fun _ => .failure 404 (str "x")) 10 (3 / 2) 3 [] =
      (.error (.julesError (Jules.notFoundMsg 3 (Jules.errorDetailStr 404 (str "x")))), []) :=
  ⟨(poll_404_retry_and_fatal (fun n => if n < 3 then .failure 404 (str "x")
      else .success (.obj [(str "activities", .arr [.obj
        [(str "originator", .s (str "agent")),
         (str "messages", .arr [.obj [(str "text", .s (str "\x7b\x7d"))]])]])]))).2.2
    (str "x") (str "x") (str "x") _ (str "\x7b\x7d") rfl rfl rfl rfl rfl,
   (poll_404_retry_and_fatal (fun _ => .failure 404 (str "x"))).2.1 10 (3 / 2) 3 []
    (str "x") (by omega) (by decide) rfl⟩

/-! ## C7 — exhausting all attempts without a fragment -/

theorem pollStep_all_no_fragment (feed : Nat → Jules.PollUpstream) (attempts : Nat)
    (delay : ℚ) :
    ∀ fuel attempt sleeps, attempts - attempt ≤ fuel →
    (∀ i, attempt ≤ i → i < attempts →
      ∃ p, feed i = .success p ∧ Jules.scanPage p = .ok none) →
    (Jules.pollStep feed attempts delay attempt sleeps).1 = .ok none := by
  intro fuel
  induction fuel with
  | zero =>
    intro attempt sleeps hf h
    rw [Jules.pollStep, dif_neg (by omega)]
  | succ n ih =>
    intro attempt sleeps hf h
    by_cases hlt : attempt < attempts
    · obtain ⟨p, hp, hscan⟩ := h attempt le_rfl hlt
      rw [Jules.pollStep, dif_pos hlt, hp]
      simp only [hscan]
      by_cases hlast : attempt < attempts - 1
      · rw [if_pos hlast]
        exact ih (attempt + 1) _ (by omega) (fun i h1 h2 => h i (by omega) h2)
      · rw [if_neg hlast]
        exact ih (attempt + 1) _ (by omega) (fun i h1 h2 => h i (by omega) h2)
    · rw [Jules.pollStep, dif_neg hlt]

/-- C7: when every polling attempt yields a 2xx activities page from which no
agent message text yields an extractable fragment, `_poll_for_response`
returns no result rather than raising, and the result-handling stage of
`analyze()` turns that into an empty `ReviewAnalysis` (no comments, no
summary) instead of an error. -/
theorem poll_no_fragment_returns_empty_analysis
    (feed : Nat → Jules.PollUpstream) (attempts : Nat) (delay : ℚ)
    (parse : Str → Except Unit (Option Jules.ReviewAnalysis))
    (h : ∀ i, i < attempts → ∃ p, feed i = .success p ∧ Jules.scanPage p = .ok none) :
    (Jules.poll_for_response feed attempts delay).1 = .ok none
    ∧ ∀ raw, (Jules.poll_for_response feed attempts delay).1 = .ok raw →
        Jules.analyzeResultStage parse raw = .ok ⟨[], none⟩ := by
  have h1 : (Jules.poll_for_response feed attempts delay).1 = .ok none :=
    pollStep_all_no_fragment feed attempts delay attempts 0 [] (by omega)
      (fun i _ h2 => h i h2)
  refine ⟨h1, fun raw hraw => ?_⟩
  rw [h1] at hraw
  cases hraw
  rfl

/-- C7 witness: two attempts of an activities page with no activities produce
"no result" and an empty analysis. -/
theorem poll_no_fragment_returns_empty_analysis_witness :
    (Jules.poll_for_response (fun _ => .success (.obj [])) 2 1).1 = .ok none
    ∧ Jules.analyzeResultStage (fun _ => .ok none) none = .ok ⟨[], none⟩ :=
  have H := poll_no_fragment_returns_empty_analysis (fun _ => .success (.obj [])) 2 1
    (fun _ => .ok none) (fun i hi => ⟨.obj [], rfl, rfl⟩)
  ⟨H.1, H.2 none H.1⟩

/-! ## C10 — fate of `comments` entries in `_parse_analysis` -/

/-- C10 counterexample: an entry whose `message` is a truthy non-string (here
the number 5) is not silently dropped — `message.strip()` raises and the whole
parse fails, losing the other (keepable) entries; and an entry whose `message`
is the blank string " " is kept yet stores an empty message after stripping,
so not every produced finding has a non-empty message. -/
theorem parse_nonstring_message_aborts :
    Jules.parse_analysis_data (.obj [(str "comments", .arr
        [.obj [(str "path", .s (str "a.py")), (str "start_line", .num 1),
               (str "message", .s (str "ok"))],
         .obj [(str "path", .s (str "b.py")), (str "start_line", .num 2),
               (str "message", .num 5)]])]) = .error ()
    ∧ Jules.entryFinding (.obj [(str "path", .s (str "a.py")), (str "start_line", .num 1),
        (str "message", .s (str "ok"))]) =
      .kept ⟨.s (str "a.py"), 1, none, str "ok", none⟩
    ∧ Jules.entryFinding (.obj [(str "path", .s (str "b.py")), (str "start_line", .num 2),
        (str "message", .num 5)]) = .fatal
    ∧ Jules.entryFinding (.obj [(str "path", .s (str "c.py")), (str "start_line", .num 3),
        (str "message", .s (str " "))]) =
      .kept ⟨.s (str "c.py"), 3, none, [], none⟩ :=
  ⟨rfl, rfl, rfl, rfl⟩

/-- C10 (amended): as long as no entry has a truthy non-string `message` or
`severity` and every entry is a JSON object (no `entryFinding` is fatal), the
parse loop keeps exactly the entries that survive, in order: an entry with
falsy (missing, null, empty, zero) `path` or `message` is dropped, and every
kept finding has a truthy path and a message that was a non-empty string
before stripping (the stored, stripped message may still be empty). An entry
with a truthy non-string `message`/`severity` instead aborts the whole parse. -/
theorem parse_entries_drop_falsy_keep_rest (entries : List JVal)
    (h : ∀ e ∈ entries, Jules.entryFinding e ≠ .fatal) :
    Jules.processEntries entries = .ok (entries.filterMap keptFinding)
    ∧ (∀ fields, ((lookupKey fields (str "path")).truthy = false ∨
         (lookupKey fields (str "message")).truthy = false) →
        keptFinding (.obj fields) = none)
    ∧ (∀ e f, keptFinding e = some f →
        f.path.truthy = true ∧
        ∃ fields mv, e = .obj fields ∧ lookupKey fields (str "message") = .s mv ∧
          mv ≠ [] ∧ f.message = Jules.pyStrip mv) := by
  refine ⟨?_, ?_, ?_⟩
  · induction entries with
    | nil => rfl
    | cons e rest ih =>
      have hne := h e (List.mem_cons_self _ _)
      have hrest := ih fun x hx => h x (List.mem_cons_of_mem _ hx)
      cases hfe : Jules.entryFinding e with
      | fatal => exact absurd hfe hne
      | dropped =>
        simp only [Jules.processEntries, hfe, List.filterMap_cons, keptFinding]
        exact hrest
      | kept f =>
        simp only [Jules.processEntries, hfe, List.filterMap_cons, keptFinding, hrest,
          Except.map]
  · intro fields hfm
    have hcond : (!(lookupKey fields (str "path")).truthy ||
        !(lookupKey fields (str "message")).truthy) = true := by
      rcases hfm with h1 | h1 <;> simp [h1]
    unfold keptFinding Jules.entryFinding
    cases hint : Jules.pyInt (lookupKey fields (str "start_line")) with
    | none => simp [hint]
    | some n =>
      cases hend : (match lookupKey fields (str "end_line") with
        | .null => some none
        | v => (Jules.pyInt v).map some : Option (Option Int)) with
      | none => simp [hint, hend]
      | some endLine => simp [hint, hend, hcond]
  · intro e f hk
    unfold keptFinding at hk
    cases hfe : Jules.entryFinding e with
    | fatal => rw [hfe] at hk; cases hk
    | dropped => rw [hfe] at hk; cases hk
    | kept g =>
      rw [hfe] at hk
      have hgf : g = f := by injection hk
      subst hgf
      unfold Jules.entryFinding at hfe
      cases e with
      | obj fields =>
        cases hint : Jules.pyInt (lookupKey fields (str "start_line")) with
        | none => simp only [hint] at hfe; exact Jules.EntryOutcome.noConfusion hfe
        | some n =>
          simp only [hint] at hfe
          cases hend : (match lookupKey fields (str "end_line") with
            | .null => some none
            | v => (Jules.pyInt v).map some : Option (Option Int)) with
          | none => simp only [hend] at hfe; exact Jules.EntryOutcome.noConfusion hfe
          | some endLine =>
            simp only [hend] at hfe
            by_cases hc : (!(lookupKey fields (str "path")).truthy ||
                !(lookupKey fields (str "message")).truthy) = true
            · simp only [if_pos hc] at hfe
              exact Jules.EntryOutcome.noConfusion hfe
            · simp only [if_neg hc] at hfe
              rw [Bool.or_eq_true, not_or] at hc
              obtain ⟨hp1, hm1⟩ := hc
              have hpath : (lookupKey fields (str "path")).truthy = true := by simpa using hp1
              have hmsg : (lookupKey fields (str "message")).truthy = true := by
                simpa using hm1
              cases hmv : lookupKey fields (str "message") with
              | s mv =>
                simp only [hmv] at hfe
                cases hsv : (if (lookupKey fields (str "severity")).truthy then
                    lookupKey fields (str "severity") else JVal.s []) with
                | s sv =>
                  simp only [hsv] at hfe
                  injection hfe with hfe'
                  refine ⟨?_, fields, mv, rfl, hmv, ?_, ?_⟩
                  · rw [← hfe']
                    exact hpath
                  · rw [hmv] at hmsg
                    simpa [JVal.truthy] using hmsg
                  · rw [← hfe']
                | null => simp only [hsv] at hfe; exact Jules.EntryOutcome.noConfusion hfe
                | bool b => simp only [hsv] at hfe; exact Jules.EntryOutcome.noConfusion hfe
                | num m => simp only [hsv] at hfe; exact Jules.EntryOutcome.noConfusion hfe
                | arr items => simp only [hsv] at hfe; exact Jules.EntryOutcome.noConfusion hfe
                | obj fs => simp only [hsv] at hfe; exact Jules.EntryOutcome.noConfusion hfe
              | null => simp only [hmv] at hfe; exact Jules.EntryOutcome.noConfusion hfe
              | bool b => simp only [hmv] at hfe; exact Jules.EntryOutcome.noConfusion hfe
              | num m => simp only [hmv] at hfe; exact Jules.EntryOutcome.noConfusion hfe
              | arr items => simp only [hmv] at hfe; exact Jules.EntryOutcome.noConfusion hfe
              | obj fs => simp only [hmv] at hfe; exact Jules.EntryOutcome.noConfusion hfe
      | null => simp at hfe
      | bool b => simp at hfe
      | num n => simp at hfe
      | s v => simp at hfe
      | arr items => simp at hfe

/-- C10 witness: a list with one keepable entry and one falsy-path entry
parses to exactly the keepable finding. -/
theorem parse_entries_drop_falsy_keep_rest_witness :
    Jules.processEntries
        [.obj [(str "path", .s (str "a.py")), (str "start_line", .num 1),
               (str "message", .s (str "ok"))],
         .obj [(str "path", .s (str "")), (str "start_line", .num 2),
               (str "message", .s (str "m"))]] =
      .ok [⟨.s (str "a.py"), 1, none, str "ok", none⟩] :=
  (parse_entries_drop_falsy_keep_rest
    [.obj [(str "path", .s (str "a.py")), (str "start_line", .num 1),
           (str "message", .s (str "ok"))],
     .obj [(str "path", .s (str "")), (str "start_line", .num 2),
           (str "message", .s (str "m"))]]
    (by
      intro e he
      rcases List.mem_cons.mp he with rfl | he2
      · intro hc
        rw [show Jules.entryFinding (.obj [(str "path", .s (str "a.py")),
          (str "start_line", .num 1), (str "message", .s (str "ok"))]) =
          .kept ⟨.s (str "a.py"), 1, none, str "ok", none⟩ from rfl] at hc
        cases hc
      · rcases List.mem_singleton.mp he2 with rfl
        intro hc
        rw [show Jules.entryFinding (.obj [(str "path", .s (str "")),
          (str "start_line", .num 2), (str "message", .s (str "m"))]) =
          .dropped from rfl] at hc
        cases hc)).1

/-! ## C9 — file paths in the built prompt -/

theorem containsInOrder_prepend (a s : Str) (ps : List Str) :
    containsInOrder s ps → containsInOrder (a ++ s) ps := by
  cases ps with
  | nil => intro _; trivial
  | cons p rest =>
    rintro ⟨pre, suf, hs, hrest⟩
    exact ⟨a ++ pre, suf, by rw [hs, List.append_assoc], hrest⟩

theorem containsInOrder_extend (s b : Str) (ps : List Str) :
    containsInOrder s ps → containsInOrder (s ++ b) ps := by
  induction ps generalizing s with
  | nil => intro _; trivial
  | cons p rest ih =>
    rintro ⟨pre, suf, hs, hrest⟩
    exact ⟨pre, suf ++ b, by rw [hs]; simp [List.append_assoc], ih suf hrest⟩

theorem dropWhile_append_stop (p : Char → Bool) (l1 : Str) (c : Char) (l2 : Str)
    (hc : p c = false) :
    (l1 ++ (c :: l2)).dropWhile p = l1.dropWhile p ++ (c :: l2) := by
  induction l1 with
  | nil => simp [List.dropWhile_cons, hc]
  | cons x xs ih =>
    simp only [List.cons_append, List.dropWhile_cons]
    by_cases hx : p x
    · simp [hx, ih]
    · simp [hx]

theorem rstrip_append_last (a : Str) (c : Char) (v : Str)
    (hc : Jules.isPySpace c = false) :
    ((a ++ ([c] ++ v)).reverse.dropWhile Jules.isPySpace).reverse =
      a ++ ([c] ++ (v.reverse.dropWhile Jules.isPySpace).reverse) := by
  have h1 : (a ++ ([c] ++ v)).reverse = v.reverse ++ (c :: a.reverse) := by
    simp [List.reverse_append]
  rw [h1, dropWhile_append_stop Jules.isPySpace v.reverse c a.reverse hc]
  simp [List.reverse_append]

theorem headD_append_left (a b : Str) (d : Char) (ha : a ≠ []) :
    (a ++ b).headD d = a.headD d := by
  cases a with
  | nil => exact absurd rfl ha
  | cons x xs => rfl

theorem dropWhile_eq_self_of_head (p : Char → Bool) (l : Str) (hl : l ≠ [])
    (hh : p (l.headD ' ') = false) : l.dropWhile p = l := by
  cases l with
  | nil => exact absurd rfl hl
  | cons x xs => simp only [List.headD_cons] at hh; simp [List.dropWhile_cons, hh]

theorem fileSection_decomp (i : Nat) (f : Jules.FilePatch) (m : Nat) :
    Jules.fileSection i f m =
      (str "### File " ++ (toString (i + 1)).data ++ str ": ") ++
        (f.path ++ ((str "\nStatus") ++ ([':'] ++
          (str " " ++ f.status ++ str "\nPatch:\n" ++ Jules.sectionPatch f m)))) := by
  have hsplit : str "\nStatus: " = (str "\nStatus") ++ ([':'] ++ str " ") := rfl
  rw [Jules.fileSection, hsplit]
  simp [List.append_assoc]

/-- The join of sections, each of which carries its item followed somewhere by
a non-whitespace character (or ends, itself non-whitespace-terminated, at the
section's end), splits as `u ++ v` with all items inside `u`, in order, and
`u` ending in a non-whitespace character. -/
theorem joinSep_decomp (pairs : List (Str × Str)) :
    pairs ≠ [] →
    (∀ pr ∈ pairs,
      (∃ pre mid rest c, Jules.isPySpace c = false ∧
        pr.1 = pre ++ (pr.2 ++ (mid ++ ([c] ++ rest)))) ∨
      (∃ pre w c, Jules.isPySpace c = false ∧ pr.2 = w ++ [c] ∧ pr.1 = pre ++ pr.2)) →
    ∃ u v, Jules.joinSep (str "\n\n") (pairs.map Prod.fst) = u ++ v
      ∧ containsInOrder u (pairs.map Prod.snd)
      ∧ ∃ u₀ c, u = u₀ ++ [c] ∧ Jules.isPySpace c = false := by
  induction pairs with
  | nil => intro hne _; exact absurd rfl hne
  | cons pr rest ih =>
    intro _ hshape
    cases rest with
    | nil =>
      rcases hshape pr (List.mem_cons_self _ _) with
        ⟨pre, mid, rst, c, hc, hsec⟩ | ⟨pre, w, c, hc, hitem, hsec⟩
      · refine ⟨pre ++ (pr.2 ++ (mid ++ [c])), rst, ?_, ?_, ?_⟩
        · show pr.1 = _
          rw [hsec]; simp [List.append_assoc]
        · exact ⟨pre, mid ++ [c], by simp [List.append_assoc], trivial⟩
        · exact ⟨pre ++ (pr.2 ++ mid), c, by simp [List.append_assoc], hc⟩
      · refine ⟨pre ++ pr.2, [], ?_, ?_, ?_⟩
        · show pr.1 = _
          rw [hsec]; simp
        · exact ⟨pre, [], by simp, trivial⟩
        · exact ⟨pre ++ w, c, by rw [hitem]; simp [List.append_assoc], hc⟩
    | cons pr2 rest2 =>
      obtain ⟨u', v', hj, hcont, u0, c, hu, hc⟩ :=
        ih (by simp) (fun q hq => hshape q (List.mem_cons_of_mem _ hq))
      have hsec1 : ∃ pre suf, pr.1 = pre ++ (pr.2 ++ suf) := by
        rcases hshape pr (List.mem_cons_self _ _) with
          ⟨pre, mid, rst, c1, _, hsec⟩ | ⟨pre, w, c1, _, _, hsec⟩
        · exact ⟨pre, mid ++ ([c1] ++ rst), hsec⟩
        · exact ⟨pre, [], by rw [hsec]; simp⟩
      obtain ⟨pre, suf, hsec⟩ := hsec1
      refine ⟨pr.1 ++ (str "\n\n" ++ u'), v', ?_, ?_, ?_⟩
      · show pr.1 ++ str "\n\n" ++ Jules.joinSep (str "\n\n") ((pr2 :: rest2).map Prod.fst) = _
        rw [hj]
        simp [List.append_assoc]
      · refine ⟨pre, suf ++ (str "\n\n" ++ u'), ?_, ?_⟩
        · rw [hsec]; simp [List.append_assoc]
        · exact containsInOrder_prepend _ _ _ (containsInOrder_prepend _ _ _ hcont)
      · refine ⟨pr.1 ++ (str "\n\n" ++ u0), c, ?_, hc⟩
        rw [hu]
        simp [List.append_assoc]

theorem build_prompt_contains (context : Jules.ReviewContext) (ps : List Str)
    (u v u0 : Str) (c : Char)
    (hj : Jules.format_files_for_prompt context = u ++ v)
    (hcont : containsInOrder u ps)
    (hu : u = u0 ++ [c])
    (hc : Jules.isPySpace c = false) :
    containsInOrder (Jules.build_prompt context) ps := by
  have hPI : Jules.promptInstructions ≠ [] := by decide
  have hPIh : Jules.isPySpace (Jules.promptInstructions.headD ' ') = false := by decide
  rw [Jules.build_prompt, hj, Jules.pyStrip]
  have hS : Jules.promptInstructions ++ str "\n\nContext:\n" ++ Jules.promptHeader context ++
      str "\nDiffs:\n" ++ (u ++ v) =
      (Jules.promptInstructions ++ (str "\n\nContext:\n" ++ (Jules.promptHeader context ++
        (str "\nDiffs:\n" ++ u0)))) ++ ([c] ++ v) := by
    rw [hu]; simp [List.append_assoc]
  rw [hS]
  have hAne : Jules.promptInstructions ++ (str "\n\nContext:\n" ++ (Jules.promptHeader context ++
      (str "\nDiffs:\n" ++ u0))) ++ ([c] ++ v) ≠ [] := by
    intro hnil
    rw [List.append_eq_nil, List.append_eq_nil] at hnil
    exact hPI hnil.1.1
  have hhead : Jules.isPySpace ((Jules.promptInstructions ++ (str "\n\nContext:\n" ++
      (Jules.promptHeader context ++ (str "\nDiffs:\n" ++ u0))) ++ ([c] ++ v)).headD ' ') =
      false := by
    rw [headD_append_left _ _ _ (by
      intro hnil
      rw [List.append_eq_nil] at hnil
      exact hPI hnil.1)]
    rw [headD_append_left _ _ _ hPI]
    exact hPIh
  rw [dropWhile_eq_self_of_head _ _ hAne hhead]
  rw [rstrip_append_last _ c v hc]
  have hA2 : Jules.promptInstructions ++ (str "\n\nContext:\n" ++ (Jules.promptHeader context ++
      (str "\nDiffs:\n" ++ u0))) ++ ([c] ++ (v.reverse.dropWhile Jules.isPySpace).reverse) =
      (Jules.promptInstructions ++ (str "\n\nContext:\n" ++ (Jules.promptHeader context ++
        str "\nDiffs:\n"))) ++ (u ++ (v.reverse.dropWhile Jules.isPySpace).reverse) := by
    rw [hu]; simp [List.append_assoc]
  rw [hA2]
  exact containsInOrder_prepend _ _ _ (containsInOrder_extend _ _ _ hcont)

/-- C9: every file path of the review context appears in the built prompt, in
the list's order, as long as at most 15 files are present; with more files,
the first 15 paths appear in order followed by the truncation marker naming
the total file count. -/
theorem prompt_contains_file_paths (context : Jules.ReviewContext) :
    (context.files.length ≤ 15 →
      containsInOrder (Jules.build_prompt context)
        (context.files.map Jules.FilePatch.path))
    ∧ (15 < context.files.length →
      containsInOrder (Jules.build_prompt context)
        ((context.files.take 15).map Jules.FilePatch.path ++
         [str "(Truncated to 15 files of " ++ (toString context.files.length).data ++
          str " total)"])) := by
  constructor
  · intro hlen
    cases hfe : context.files with
    | nil => exact trivial
    | cons f0 frest =>
      rw [← hfe]
      have hne : context.files.enum.map
          (fun iv => (Jules.fileSection iv.1 iv.2 4000, iv.2.path)) ≠ [] := by
        rw [hfe]; simp [List.enum]
      have hshape : ∀ pr ∈ context.files.enum.map
          (fun iv => (Jules.fileSection iv.1 iv.2 4000, iv.2.path)),
          (∃ pre mid rest c, Jules.isPySpace c = false ∧
            pr.1 = pre ++ (pr.2 ++ (mid ++ ([c] ++ rest)))) ∨
          (∃ pre w c, Jules.isPySpace c = false ∧ pr.2 = w ++ [c] ∧ pr.1 = pre ++ pr.2) := by
        intro pr hpr
        obtain ⟨iv, _, rfl⟩ := List.mem_map.mp hpr
        exact Or.inl ⟨str "### File " ++ (toString (iv.1 + 1)).data ++ str ": ",
          str "\nStatus", str " " ++ iv.2.status ++ str "\nPatch:\n" ++
            Jules.sectionPatch iv.2 4000, ':', by decide, fileSection_decomp iv.1 iv.2 4000⟩
      obtain ⟨u, v, hj, hcont, u0, c, hu, hc⟩ :=
        joinSep_decomp _ hne hshape
      have hfst : (context.files.enum.map
          (fun iv => (Jules.fileSection iv.1 iv.2 4000, iv.2.path))).map Prod.fst =
          context.files.enum.map (fun iv => Jules.fileSection iv.1 iv.2 4000) := by
        simp [List.map_map, Function.comp]
      have hsnd : (context.files.enum.map
          (fun iv => (Jules.fileSection iv.1 iv.2 4000, iv.2.path))).map Prod.snd =
          context.files.map Jules.FilePatch.path := by
        rw [List.map_map]
        rw [show ((Prod.snd ∘ fun iv : Nat × Jules.FilePatch =>
          (Jules.fileSection iv.1 iv.2 4000, iv.2.path)) =
          (Jules.FilePatch.path ∘ Prod.snd)) from rfl]
        rw [← List.map_map, List.enum_map_snd]
      rw [hfst] at hj
      rw [hsnd] at hcont
      have hfmt : Jules.format_files_for_prompt context = u ++ v := by
        simp only [Jules.format_files_for_prompt]
        rw [if_neg (by omega), List.take_of_length_le hlen]
        exact hj
      exact build_prompt_contains context _ u v u0 c hfmt hcont hu hc
  · intro hlen
    have hne : (context.files.take 15).enum.map
        (fun iv => (Jules.fileSection iv.1 iv.2 4000, iv.2.path)) ++
        [(str "(Truncated to " ++ (toString (15 : Nat)).data ++ str " files of " ++
            (toString context.files.length).data ++ str " total)",
          str "(Truncated to " ++ (toString (15 : Nat)).data ++ str " files of " ++
            (toString context.files.length).data ++ str " total)")] ≠ [] := by
      simp
    have hshape : ∀ pr ∈ (context.files.take 15).enum.map
        (fun iv => (Jules.fileSection iv.1 iv.2 4000, iv.2.path)) ++
        [(str "(Truncated to " ++ (toString (15 : Nat)).data ++ str " files of " ++
            (toString context.files.length).data ++ str " total)",
          str "(Truncated to " ++ (toString (15 : Nat)).data ++ str " files of " ++
            (toString context.files.length).data ++ str " total)")],
        (∃ pre mid rest c, Jules.isPySpace c = false ∧
          pr.1 = pre ++ (pr.2 ++ (mid ++ ([c] ++ rest)))) ∨
        (∃ pre w c, Jules.isPySpace c = false ∧ pr.2 = w ++ [c] ∧ pr.1 = pre ++ pr.2) := by
      intro pr hpr
      rcases List.mem_append.mp hpr with hprl | hprr
      · obtain ⟨iv, _, rfl⟩ := List.mem_map.mp hprl
        exact Or.inl ⟨str "### File " ++ (toString (iv.1 + 1)).data ++ str ": ",
          str "\nStatus", str " " ++ iv.2.status ++ str "\nPatch:\n" ++
            Jules.sectionPatch iv.2 4000, ':', by decide, fileSection_decomp iv.1 iv.2 4000⟩
      · rw [List.mem_singleton.mp hprr]
        refine Or.inr ⟨[], str "(Truncated to " ++ (toString (15 : Nat)).data ++
          str " files of " ++ (toString context.files.length).data ++ str " total",
          ')', by decide, ?_, (List.nil_append _).symm⟩
        rw [show str " total)" = str " total" ++ [')'] from rfl]
        simp [List.append_assoc]
    obtain ⟨u, v, hj, hcont, u0, c, hu, hc⟩ := joinSep_decomp _ hne hshape
    rw [List.map_append, List.map_map] at hj hcont
    have hfst : ((context.files.take 15).enum.map
        (Prod.fst ∘ fun iv => (Jules.fileSection iv.1 iv.2 4000, iv.2.path))) =
        (context.files.take 15).enum.map (fun iv => Jules.fileSection iv.1 iv.2 4000) := by
      simp [Function.comp]
    have hsnd : ((context.files.take 15).enum.map
        (Prod.snd ∘ fun iv => (Jules.fileSection iv.1 iv.2 4000, iv.2.path))) =
        (context.files.take 15).map Jules.FilePatch.path := by
      rw [show ((Prod.snd ∘ fun iv : Nat × Jules.FilePatch =>
        (Jules.fileSection iv.1 iv.2 4000, iv.2.path)) =
        (Jules.FilePatch.path ∘ Prod.snd)) from rfl]
      rw [← List.map_map, List.enum_map_snd]
    rw [hfst] at hj
    rw [hsnd] at hcont
    have hmarker : str "(Truncated to " ++ (toString (15 : Nat)).data ++ str " files of " ++
        (toString context.files.length).data ++ str " total)" =
        str "(Truncated to 15 files of " ++ (toString context.files.length).data ++
          str " total)" := by
      rw [show str "(Truncated to " ++ (toString (15 : Nat)).data ++ str " files of " =
        str "(Truncated to 15 files of " from rfl]
    have hfmt : Jules.format_files_for_prompt context = u ++ v := by
      simp only [Jules.format_files_for_prompt]
      rw [if_pos (by omega)]
      rw [← hj]
      simp
    rw [hmarker] at hcont
    exact build_prompt_contains context _ u v u0 c hfmt hcont hu hc

/-- C9 witness: a one-file push context is under the cap and its path is in
the prompt. -/
theorem prompt_contains_file_paths_witness :
    (Jules.ReviewContext.push ⟨str "o/r", 1, some (str "refs/heads/main"), none, none, [],
        [⟨str "a.py", str "modified", 1, 0, none⟩], none⟩).files.length ≤ 15
    ∧ containsInOrder
        (Jules.build_prompt (Jules.ReviewContext.push ⟨str "o/r", 1,
          some (str "refs/heads/main"), none, none, [],
          [⟨str "a.py", str "modified", 1, 0, none⟩], none⟩))
        ((Jules.ReviewContext.push ⟨str "o/r", 1, some (str "refs/heads/main"), none, none, [],
          [⟨str "a.py", str "modified", 1, 0, none⟩], none⟩).files.map
          Jules.FilePatch.path) :=
  ⟨by decide,
   (prompt_contains_file_paths (Jules.ReviewContext.push ⟨str "o/r", 1,
      some (str "refs/heads/main"), none, none, [],
      [⟨str "a.py", str "modified", 1, 0, none⟩], none⟩)).1 (by decide)⟩
